import Mathlib

/-!
# nvim-plugin: the wizard of `pkg/ui/model.go` and the generator of `pkg/ui/generator.go`

A shallow embedding of the Bubble Tea model of the plugin generator wizard
(`Model`, `NewModel`, `Update` and the three per-screen handlers), together
with the small part of the terminal library the handlers rely on (key
messages and their `String()` rendering, and Go's string conversions), and of
the scaffold generator (`GeneratePlugin`, `renderTemplateFile`,
`sanitizeVarName`, `capitalizeFirst`).

Go strings are byte sequences, so they are modelled as lists of byte values;
the plugin generator called from the confirmation screen is an input of the
model (its outcome depends on the file system), and every call made to it is
recorded in the result of `Update`.
-/

namespace NvimPlugin

/-! ## Go strings and runes -/

/-- A Go string: a finite sequence of bytes (each value below 256), not
necessarily valid UTF-8. `len` is `List.length`, `+` is `++`. -/
abbrev GoString := List Nat

/-- A Go rune (an `int32` code point). -/
abbrev Rune := Int

/-- The Go conversion `string(r)` of one rune: its UTF-8 encoding, where a
value that is not a valid code point (negative, above U+10FFFF, or a
surrogate) is converted to U+FFFD. -/
def encodeRune (r : Rune) : GoString :=
  if r < 0 ∨ 0x10FFFF < r ∨ (0xD800 ≤ r ∧ r ≤ 0xDFFF) then [0xEF, 0xBF, 0xBD]
  else
    let n := r.toNat
    if n < 0x80 then [n]
    else if n < 0x800 then [0xC0 + n / 64, 0x80 + n % 64]
    else if n < 0x10000 then [0xE0 + n / 4096, 0x80 + (n / 64) % 64, 0x80 + n % 64]
    else [0xF0 + n / 262144, 0x80 + (n / 4096) % 64, 0x80 + (n / 64) % 64, 0x80 + n % 64]

/-- The Go conversion `string(rs)` of a rune slice: the concatenation of the
encodings of its runes. -/
def runesToString (rs : List Rune) : GoString :=
  (rs.map encodeRune).flatten

/-- The bytes of a string literal of the source. -/
def str (s : String) : GoString :=
  runesToString (s.toList.map fun c => (c.toNat : Int))

/-- The Go slice expression `s[:hi]`: it panics (here `none`) unless
`0 ≤ hi ≤ len(s)`. -/
def sliceTo (s : GoString) (hi : Int) : Option GoString :=
  if 0 ≤ hi ∧ hi ≤ (s.length : Int) then some (s.take hi.toNat) else none

/-! ## Key messages of the terminal library -/

/-- The type of a key of the terminal library. Only three things about a key
type are observable by the wizard: whether it is `KeyRunes`, and otherwise
whether the library's name table `keyNames` has an entry for it and which
name that is. A key type other than `KeyRunes` is therefore represented by
its entry: `named s` when the table gives it the name `s`, `unnamed` when the
table has no entry. -/
inductive KeyType where
  | KeyRunes
  | named (name : GoString)
  | unnamed
  deriving DecidableEq, Repr

/-- The key type of the Enter key, named "enter" in the library's table. -/
def KeyEnter : KeyType := .named (str "enter")

/-- The key type of the Backspace key, named "backspace". -/
def KeyBackspace : KeyType := .named (str "backspace")

/-- The key type of the interrupt key, named "ctrl+c". -/
def KeyCtrlC : KeyType := .named (str "ctrl+c")

/-- A key message `tea.KeyMsg`: the key type, the runes typed (for
`KeyRunes`), and the Alt and Paste flags. -/
structure KeyMsg where
  type : KeyType
  Runes : List Rune := []
  Alt : Bool := false
  Paste : Bool := false
  deriving DecidableEq, Repr

/-- The library's `KeyMsg.String()`: an "alt+" marker when Alt is set,
followed by the typed runes (bracketed when pasted) for `KeyRunes` and by the
key's name otherwise; a key type without a name renders as the empty string. -/
def KeyMsg.String (k : KeyMsg) : GoString :=
  let pre : GoString := if k.Alt then str "alt+" else []
  match k.type with
  | .KeyRunes =>
      pre ++ (if k.Paste then str "[" else []) ++ runesToString k.Runes
        ++ (if k.Paste then str "]" else [])
  | .named s => pre ++ s
  | .unnamed => []

/-- A message `tea.Msg` delivered to `Update`: a key message, or any other
message of the library (window size, mouse, ...), which the wizard never
inspects. -/
inductive Msg where
  | key (k : KeyMsg)
  | other (tag : Nat)
  deriving DecidableEq, Repr

/-- A command `tea.Cmd` returned by `Update`: `nil` or `tea.Quit`. -/
inductive Cmd where
  | nil
  | Quit
  deriving DecidableEq, Repr

/-! ## The model -/

/-- The screens of the application (`status` in the source). -/
inductive status where
  | nameInput
  | descriptionInput
  | confirmScreen
  | done
  deriving DecidableEq, Repr

/-- A non-nil Go `error`, identified by the text its `Error()` returns. -/
structure GoError where
  Error : GoString
  deriving DecidableEq, Repr

/-- The application state `Model`; `err = none` is the nil error. -/
structure Model where
  status : status
  pluginName : GoString
  description : GoString
  cursor : Int
  err : Option GoError
  deriving DecidableEq, Repr

/-- `NewModel()`: the zero model, in the `nameInput` state. -/
def NewModel : Model :=
  { status := .nameInput, pluginName := [], description := [], cursor := 0, err := none }

/-- The outcome of one call `GeneratePlugin(name, description)`: `none` for a
nil error. It depends on the file system, so it is an input of the model. -/
abbrev Generator := GoString → GoString → Option GoError

/-- What one call of an update function yields: the returned model and
command, and the calls of `GeneratePlugin` made on the way, in order. -/
structure Step where
  model : Model
  cmd : Cmd
  calls : List (GoString × GoString)
  deriving DecidableEq, Repr

/-- `updateNameInput(msg, m)`; `none` would be a run-time panic. -/
def updateNameInput (msg : Msg) (m : Model) : Option Step :=
  match msg with
  | .key k =>
      if k.String = str "enter" then
        if 0 < m.pluginName.length then
          some ⟨{ m with status := .descriptionInput }, .nil, []⟩
        else some ⟨m, .nil, []⟩
      else if k.String = str "backspace" then
        if 0 < m.pluginName.length then
          (sliceTo m.pluginName ((m.pluginName.length : Int) - 1)).map fun s =>
            ⟨{ m with pluginName := s }, .nil, []⟩
        else some ⟨m, .nil, []⟩
      else
        if k.type = .KeyRunes then
          some ⟨{ m with pluginName := m.pluginName ++ runesToString k.Runes }, .nil, []⟩
        else some ⟨m, .nil, []⟩
  | .other _ => some ⟨m, .nil, []⟩

/-- `updateDescriptionInput(msg, m)`; `none` would be a run-time panic. -/
def updateDescriptionInput (msg : Msg) (m : Model) : Option Step :=
  match msg with
  | .key k =>
      if k.String = str "enter" then
        some ⟨{ m with status := .confirmScreen }, .nil, []⟩
      else if k.String = str "backspace" then
        if 0 < m.description.length then
          (sliceTo m.description ((m.description.length : Int) - 1)).map fun s =>
            ⟨{ m with description := s }, .nil, []⟩
        else some ⟨m, .nil, []⟩
      else
        if k.type = .KeyRunes then
          some ⟨{ m with description := m.description ++ runesToString k.Runes }, .nil, []⟩
        else some ⟨m, .nil, []⟩
  | .other _ => some ⟨m, .nil, []⟩

/-- `updateConfirmScreen(msg, m)`, with the outcome `gen` of `GeneratePlugin`. -/
def updateConfirmScreen (gen : Generator) (msg : Msg) (m : Model) : Option Step :=
  match msg with
  | .key k =>
      if k.String = str "y" ∨ k.String = str "Y" then
        let m1 : Model :=
          match gen m.pluginName m.description with
          | some e => { m with err := some e }
          | none => m
        some ⟨{ m1 with status := .done }, .nil, [(m.pluginName, m.description)]⟩
      else if k.String = str "n" ∨ k.String = str "N" then
        some ⟨{ m with status := .nameInput }, .nil, []⟩
      else some ⟨m, .nil, []⟩
  | .other _ => some ⟨m, .nil, []⟩

/-- Whether the message is a key message rendering as "ctrl+c" or "q". -/
def isQuit (msg : Msg) : Bool :=
  match msg with
  | .key k => k.String = str "ctrl+c" ∨ k.String = str "q"
  | .other _ => false

/-- `Model.Update(msg)`: the global quit keys first, then the handler of the
current screen; `done` has no handler. -/
def Update (gen : Generator) (msg : Msg) (m : Model) : Option Step :=
  if isQuit msg then some ⟨m, .Quit, []⟩
  else
    match m.status with
    | .nameInput => updateNameInput msg m
    | .descriptionInput => updateDescriptionInput msg m
    | .confirmScreen => updateConfirmScreen gen msg m
    | .done => some ⟨m, .nil, []⟩

/-- The models reachable from `NewModel()` by finitely many calls of
`Update`, each with an arbitrary message and an arbitrary generator outcome. -/
inductive Reachable : Model → Prop where
  | init : Reachable NewModel
  | step (gen : Generator) (msg : Msg) (m : Model) (r : Step) :
      Reachable m → Update gen msg m = some r → Reachable r.model

/-- A sequence of calls of `Update`, each message paired with the generator
outcome at that moment: the final model and all generator calls made. -/
def runUpdates : List (Generator × Msg) → Model → Option (Model × List (GoString × GoString))
  | [], m => some (m, [])
  | (gen, msg) :: rest, m =>
      match Update gen msg m with
      | none => none
      | some r =>
          match runUpdates rest r.model with
          | none => none
          | some (m2, cs) => some (m2, r.calls ++ cs)

/-- A key message that types text: of type `KeyRunes`, and rendering as none
of the four strings the handlers of the input screens dispatch on before the
default case ("ctrl+c", "q", "enter", "backspace"). -/
def isTextKey (k : KeyMsg) : Prop :=
  k.type = .KeyRunes ∧ k.String ≠ str "ctrl+c" ∧ k.String ≠ str "q"
    ∧ k.String ≠ str "enter" ∧ k.String ≠ str "backspace"

instance : DecidablePred isTextKey := fun k => by
  unfold isTextKey
  infer_instance

/-- The model `m` with `s` appended to the buffer of its screen: `pluginName`
in `nameInput`, `description` in `descriptionInput`. -/
def withTyped (m : Model) (s : GoString) : Model :=
  match m.status with
  | .nameInput => { m with pluginName := m.pluginName ++ s }
  | .descriptionInput => { m with description := m.description ++ s }
  | _ => m

/-- A model reached by typing "t" and pressing Enter. -/
def typedT : Model :=
  { status := .descriptionInput, pluginName := [116], description := [], cursor := 0, err := none }

/-- The key message of one typed character `c`, as the tests build it. -/
def pressRune (c : Rune) : Msg := .key ⟨.KeyRunes, [c], false, false⟩

/-- The key message of the Backspace key, as the tests build it. -/
def pressBackspace : Msg := .key ⟨KeyBackspace, [], false, false⟩

/-- The buffer edited on the current screen: `pluginName` in `nameInput`,
`description` in `descriptionInput`. -/
def bufferOf (m : Model) : GoString :=
  match m.status with
  | .nameInput => m.pluginName
  | .descriptionInput => m.description
  | _ => []

/-- The events the handlers recognise, per screen: the quit keys everywhere;
"enter", "backspace" and `KeyRunes` keys on the two input screens; "y", "Y",
"n", "N" on the confirmation screen. A message that is not a key message is
never recognised. -/
def recognized (m : Model) (msg : Msg) : Bool :=
  match msg with
  | .other _ => false
  | .key k =>
      decide (k.String = str "q" ∨ k.String = str "ctrl+c") ||
      (match m.status with
       | .nameInput =>
           decide (k.String = str "enter" ∨ k.String = str "backspace" ∨ k.type = .KeyRunes)
       | .descriptionInput =>
           decide (k.String = str "enter" ∨ k.String = str "backspace" ∨ k.type = .KeyRunes)
       | .confirmScreen =>
           decide (k.String = str "y" ∨ k.String = str "Y" ∨ k.String = str "n"
             ∨ k.String = str "N")
       | .done => false)

/-! ## The scaffold generator of `pkg/ui/generator.go`

The generator works on the file system, the clock, the embedded template
assets and the template engine. These are inputs of the model, collected in a
`World`; the generator returns, next to its error value, the trace of the
operations it performed. The library functions it computes paths and
template variables with (`strings.ReplaceAll`, `strings.Repeat`,
`filepath.Join`, `filepath.Base`, on a Unix system) are modelled on bytes. -/

/-- The scan behind `strings.ReplaceAll`: `skip` counts the bytes of a matched
occurrence of `old` still to pass over. -/
def replaceFrom (old new : GoString) : Nat → GoString → GoString
  | _, [] => []
  | skip + 1, _ :: rest => replaceFrom old new skip rest
  | 0, b :: rest =>
      if old ≠ [] ∧ old.isPrefixOf (b :: rest) = true then
        new ++ replaceFrom old new (old.length - 1) rest
      else b :: replaceFrom old new 0 rest

/-- The library's `strings.ReplaceAll(s, old, new)` for a non-empty `old`: all
non-overlapping occurrences of `old`, from the left, replaced by `new`. (With
an empty `old`, which the source never passes, the string is left as it is.) -/
def ReplaceAll (s old new : GoString) : GoString :=
  replaceFrom old new 0 s

/-- The library's `strings.Repeat(s, count)` for a count that is a length. -/
def Repeat (s : GoString) (count : Nat) : GoString :=
  (List.replicate count s).flatten

/-- `sanitizeVarName(name)`. -/
def sanitizeVarName (name : GoString) : GoString :=
  ReplaceAll name (str "-") (str "_")

/-- `capitalizeFirst(s)`, with the library's `strings.ToUpper` as an input.
Behind the test `s == ""` the slices `s[:1]` and `s[1:]` are in range: they
are the first byte of `s` and the bytes after it. -/
def capitalizeFirst (ToUpper : GoString → GoString) (s : GoString) : GoString :=
  if s = [] then []
  else ToUpper (s.take 1) ++ s.drop 1

/-- Whether a byte is an ASCII letter, an ASCII digit or the underscore: the
characters a Lua variable name is made of. -/
def isNameByte (b : Nat) : Bool :=
  (48 ≤ b ∧ b ≤ 57) ∨ (65 ≤ b ∧ b ≤ 90) ∨ (97 ≤ b ∧ b ≤ 122) ∨ b = 95

/-- The variables handed to the templates (`TemplateData`). -/
structure TemplateData where
  Name : GoString
  Description : GoString
  Date : GoString
  VarName : GoString
  CapitalizedCmd : GoString
  HeaderTitle : GoString
  Underline : GoString
  DocHeader : GoString
  deriving DecidableEq, Repr

/-- The elements of a path: the byte strings between its slashes (byte 47). -/
def splitSlash : GoString → List GoString
  | [] => [[]]
  | b :: rest =>
      if b = 47 then [] :: splitSlash rest
      else
        match splitSlash rest with
        | [] => [[b]]
        | c :: cs => (b :: c) :: cs

/-- One step of the library's `filepath.Clean`, on the stack of elements kept
so far (last one first): an empty element and "." are dropped; ".." removes
the last kept element if that is a real one, is kept at the start of a
relative path, and is dropped at the start of a rooted path; any other
element is kept. -/
def pushElem (rooted : Bool) (st : List GoString) (e : GoString) : List GoString :=
  if e = [] ∨ e = str "." then st
  else if e = str ".." then
    match st with
    | [] => if rooted then [] else [e]
    | top :: below => if top = str ".." then e :: st else below
  else e :: st

/-- Whether a path is rooted: it starts with a slash. -/
def isRooted (path : GoString) : Bool :=
  path.head? = some 47

/-- The elements of the cleaned form of a path, in order. -/
def pathElems (path : GoString) : List GoString :=
  ((splitSlash path).foldl (pushElem (isRooted path)) []).reverse

/-- The library's `filepath.Clean(path)`: the shortest path naming the same
place by purely lexical processing; "." for an empty result. -/
def Clean (path : GoString) : GoString :=
  if isRooted path then str "/" ++ (str "/").intercalate (pathElems path)
  else if pathElems path = [] then str "."
  else (str "/").intercalate (pathElems path)

/-- The library's `filepath.Join(elem...)`: the elements from the first
non-empty one on, joined by slashes, and cleaned; the empty string when every
element is empty. -/
def Join (elem : List GoString) : GoString :=
  match elem.dropWhile (fun e => decide (e = [])) with
  | [] => []
  | es => Clean ((str "/").intercalate es)

/-- The library's `filepath.Base(path)`: the last element of the path, after
removing trailing slashes; "." for the empty path, "/" for a path of slashes. -/
def Base (path : GoString) : GoString :=
  if path = [] then str "."
  else
    let p := (path.reverse.dropWhile (fun b => decide (b = 47))).reverse
    let b := (p.reverse.takeWhile (fun b => decide (b ≠ 47))).reverse
    if b = [] then str "/" else b

/-- Whether the path `path` lies in the directory `dir`, lexically: the
cleaned path is the cleaned directory followed by further elements, none of
which climbs back with "..". -/
def insideDir (dir path : GoString) : Bool :=
  decide (isRooted dir = isRooted path)
    && (pathElems dir).isPrefixOf (pathElems path)
    && decide (str ".." ∉ (pathElems path).drop (pathElems dir).length)

/-- An operation of the generator on its surroundings: `os.MkdirAll(path,
perm)`, a call of `renderTemplateFile(tmplPath, data)`, and
`os.WriteFile(path, content, perm)`. -/
inductive Op where
  | MkdirAll (path : GoString) (perm : Nat)
  | renderTemplateFile (tmplPath : GoString)
  | WriteFile (path content : GoString) (perm : Nat)
  deriving DecidableEq, Repr

/-- The file-system path an operation works on, if it has one. -/
def Op.path : Op → Option GoString
  | .MkdirAll path _ => some path
  | .renderTemplateFile _ => none
  | .WriteFile path _ _ => some path

/-- An operation that was performed, with its outcome (`none`: no error). -/
structure Event where
  op : Op
  err : Option GoError
  deriving DecidableEq, Repr

/-- The surroundings of one call of `GeneratePlugin`. The outcome of a
file-system operation may depend on everything done before it, so
`MkdirAll` and `WriteFile` take the trace of the operations performed so far.
`Date` is `time.Now().Format("2006-01-02")`; `ReadFile` is
`templateFS.ReadFile`; `Parse name text` is `template.New(name).Parse(text)`,
whose result (if any) is the template's `Execute` as a function of the data. -/
structure World where
  MkdirAll : List Event → GoString → Nat → Option GoError
  WriteFile : List Event → GoString → GoString → Nat → Option GoError
  Date : GoString
  ToUpper : GoString → GoString
  ReadFile : GoString → Except GoError GoString
  Parse : GoString → GoString → Except GoError (TemplateData → Except GoError GoString)

/-- The error built by `fmt.Errorf(format, ..., err)` with a format ending in
`%w`: its message is the formatted text `text` before the verb followed by
the message of `err`. -/
def Errorf (text : GoString) (err : GoError) : GoError :=
  ⟨text ++ err.Error⟩

/-- `renderTemplateFile(tmplPath, data)`: the returned string and error. -/
def renderTemplateFile (w : World) (tmplPath : GoString) (data : TemplateData) :
    GoString × Option GoError :=
  match w.ReadFile tmplPath with
  | .error err =>
      ([], some (Errorf (str "failed to read template file " ++ tmplPath ++ str ": ") err))
  | .ok tmplContent =>
      match w.Parse (Base tmplPath) tmplContent with
      | .error err =>
          ([], some (Errorf (str "failed to parse template " ++ tmplPath ++ str ": ") err))
      | .ok tmpl =>
          match tmpl data with
          | .error err =>
              ([], some (Errorf (str "failed to execute template " ++ tmplPath ++ str ": ") err))
          | .ok buf => (buf, none)

/-- What a call of `GeneratePlugin` (or of one of its loops) yields: the
returned error and the trace of the operations performed so far. -/
structure Run where
  err : Option GoError
  trace : List Event
  deriving DecidableEq, Repr

/-- The loop of `GeneratePlugin` over `dirs`, continuing the trace `tr`. -/
def createDirs (w : World) : List GoString → List Event → Run
  | [], tr => ⟨none, tr⟩
  | dir :: rest, tr =>
      match w.MkdirAll tr dir 0o755 with
      | some err =>
          ⟨some (Errorf (str "failed to create directory " ++ dir ++ str ": ") err),
            tr ++ [⟨.MkdirAll dir 0o755, some err⟩]⟩
      | none => createDirs w rest (tr ++ [⟨.MkdirAll dir 0o755, none⟩])

/-- The loop of `GeneratePlugin` over `filesToGenerate` (pairs of
`outputPath` and `tmplPath`), continuing the trace `tr`; `writeFile(path,
content)` is `os.WriteFile(path, []byte(content), 0644)`. -/
def generateFiles (w : World) (data : TemplateData) :
    List (GoString × GoString) → List Event → Run
  | [], tr => ⟨none, tr⟩
  | (outputPath, tmplPath) :: rest, tr =>
      match renderTemplateFile w tmplPath data with
      | (_, some err) =>
          ⟨some (Errorf (str "failed to render template for " ++ outputPath ++ str ": ") err),
            tr ++ [⟨.renderTemplateFile tmplPath, some err⟩]⟩
      | (content, none) =>
          let tr1 := tr ++ [⟨.renderTemplateFile tmplPath, none⟩]
          match w.WriteFile tr1 outputPath content 0o644 with
          | some err =>
              ⟨some (Errorf (str "failed to write file " ++ outputPath ++ str ": ") err),
                tr1 ++ [⟨.WriteFile outputPath content 0o644, some err⟩]⟩
          | none =>
              generateFiles w data rest (tr1 ++ [⟨.WriteFile outputPath content 0o644, none⟩])

/-- The template data `data` that `GeneratePlugin` prepares. -/
def templateData (w : World) (name description : GoString) : TemplateData :=
  { Name := name
    Description := description
    Date := w.Date
    VarName := sanitizeVarName name
    CapitalizedCmd := capitalizeFirst w.ToUpper name
    HeaderTitle := w.ToUpper name
    DocHeader := w.ToUpper name ++ str ".TXT"
    Underline := Repeat (str "=") (w.ToUpper name).length }

/-- The slice `dirs` of `GeneratePlugin`. -/
def pluginDirs (name : GoString) : List GoString :=
  [Join [str "./" ++ name, str "lua", name],
   Join [str "./" ++ name, str "plugin"],
   Join [str "./" ++ name, str "doc"]]

/-- The slice `filesToGenerate` of `GeneratePlugin`: pairs of `outputPath`
and `tmplPath`. -/
def filesToGenerate (name : GoString) : List (GoString × GoString) :=
  [(Join [str "./" ++ name, str "lua", name, str "init.lua"],
      str "templates/lua/plugin_name/init.lua.tmpl"),
   (Join [str "./" ++ name, str "plugin", name ++ str ".lua"],
      str "templates/plugin/plugin.lua.tmpl"),
   (Join [str "./" ++ name, str "README.md"],
      str "templates/README.md.tmpl"),
   (Join [str "./" ++ name, str "doc", name ++ str ".txt"],
      str "templates/doc/plugin.txt.tmpl")]

/-- `GeneratePlugin(name, description)` in the surroundings `w`. -/
def GeneratePlugin (w : World) (name description : GoString) : Run :=
  let pluginDir := str "./" ++ name
  match w.MkdirAll [] pluginDir 0o755 with
  | some err =>
      ⟨some (Errorf (str "failed to create plugin directory: ") err),
        [⟨.MkdirAll pluginDir 0o755, some err⟩]⟩
  | none =>
      match createDirs w (pluginDirs name) [⟨.MkdirAll pluginDir 0o755, none⟩] with
      | ⟨some err, tr⟩ => ⟨some err, tr⟩
      | ⟨none, tr⟩ => generateFiles w (templateData w name description) (filesToGenerate name) tr

/-- The library's `strings.ToUpper` on ASCII text: the letters a to z become
A to Z. -/
def asciiUpper (s : GoString) : GoString :=
  s.map fun b => if 97 ≤ b ∧ b ≤ 122 then b - 32 else b

/-- Surroundings in which every operation succeeds; every template is the
placeholder of the plugin name. -/
def okWorld : World :=
  { MkdirAll := fun _ _ _ => none
    WriteFile := fun _ _ _ _ => none
    Date := str "2024-01-01"
    ToUpper := asciiUpper
    ReadFile := fun _ => .ok (str "{{.Name}}")
    Parse := fun _ _ => .ok fun data => .ok data.Name }

/-- The library's `*fs.PathError`, by its message: the operation, the path
and the cause, as "op path: cause". -/
def PathError (op path cause : GoString) : GoError :=
  ⟨op ++ str " " ++ path ++ str ": " ++ cause⟩

/-- Whether a path names the working directory or a directory above it: it
is not empty and each of its elements is empty, "." or "..". -/
def namesWorkingDir (path : GoString) : Bool :=
  decide (path ≠ []) &&
    (splitSlash path).all fun e => decide (e = [] ∨ e = str "." ∨ e = str "..")

/-- The library's `os.MkdirAll(path, perm)` on a file system that holds only
the working directory and the directories above it, none of them writable.
A path that names an existing directory succeeds at once; otherwise the
parent (the path without its last element and the separator before it) is
made first, if there is one, and its failure is returned as it is; then
`Mkdir(path)` fails with the `PathError` of "permission denied". `fuel`
bounds the recursion on ever shorter parents. -/
def mkdirAllReadOnly : Nat → GoString → Option GoError
  | 0, _ => none
  | fuel + 1, path =>
      if namesWorkingDir path then none
      else
        let trimmed := (path.reverse.dropWhile fun b => decide (b = 47)).reverse
        let parent := ((trimmed.reverse.dropWhile fun b => decide (b ≠ 47)).drop 1).reverse
        match (if parent ≠ [] then mkdirAllReadOnly fuel parent else none) with
        | some err => some err
        | none => some (PathError (str "mkdir") path (str "permission denied"))

/-- Surroundings in which no directory can be created: the file system holds
only the read-only working directory and the directories above it. -/
def readOnlyWorld : World :=
  { okWorld with MkdirAll := fun _ path _ => mkdirAllReadOnly (path.length + 1) path }

/-- The outcome the surroundings give the operation `op` when it is performed
after the operations of the trace `tr`. -/
def outcome (w : World) (data : TemplateData) (tr : List Event) : Op → Option GoError
  | .MkdirAll path perm => w.MkdirAll tr path perm
  | .renderTemplateFile tmplPath => (renderTemplateFile w tmplPath data).2
  | .WriteFile path content perm => w.WriteFile tr path content perm

/-- The steps of the loop over `dirs`, each with the text its failure is
wrapped in. -/
def dirSteps (dirs : List GoString) : List (Op × GoString) :=
  dirs.map fun dir =>
    (Op.MkdirAll dir 0o755, str "failed to create directory " ++ dir ++ str ": ")

/-- The steps of the loop over `filesToGenerate`: for each file a rendering
and the writing of what was rendered, each with the text its failure is
wrapped in. -/
def fileSteps (w : World) (data : TemplateData) (files : List (GoString × GoString)) :
    List (Op × GoString) :=
  files.flatMap fun f =>
    [(Op.renderTemplateFile f.2, str "failed to render template for " ++ f.1 ++ str ": "),
     (Op.WriteFile f.1 (renderTemplateFile w f.2 data).1 0o644,
        str "failed to write file " ++ f.1 ++ str ": ")]

/-- The steps of `GeneratePlugin`, in order: the plugin directory, the three
directories below it, and a rendering and a writing for each of the four
files. -/
def plannedSteps (w : World) (name description : GoString) : List (Op × GoString) :=
  (Op.MkdirAll (str "./" ++ name) 0o755, str "failed to create plugin directory: ")
    :: (dirSteps (pluginDirs name)
      ++ fileSteps w (templateData w name description) (filesToGenerate name))

/-- Fail-fast execution of a list of steps, continuing the trace `tr`: the
steps are performed in order; the first failure ends the run with that
failure wrapped; no step after it is performed and nothing is undone. -/
def runSteps (w : World) (data : TemplateData) : List (Op × GoString) → List Event → Run
  | [], tr => ⟨none, tr⟩
  | (op, text) :: rest, tr =>
      match outcome w data tr op with
      | some err => ⟨some (Errorf text err), tr ++ [⟨op, some err⟩]⟩
      | none => runSteps w data rest (tr ++ [⟨op, none⟩])

/-- The events of steps that were all performed without error. -/
def okEvents (steps : List (Op × GoString)) : List Event :=
  steps.map fun st => ⟨st.1, none⟩

/-- Every one of the steps succeeds when they are performed in order after
the trace `tr`. -/
def allSucceed (w : World) (data : TemplateData) : List (Op × GoString) → List Event → Prop
  | [], _ => True
  | (op, _) :: rest, tr =>
      outcome w data tr op = none ∧ allSucceed w data rest (tr ++ [⟨op, none⟩])

/-- The library's `strings.Contains(s, substr)`. -/
def Contains : GoString → GoString → Bool
  | [], substr => substr.isPrefixOf []
  | b :: rest, substr => substr.isPrefixOf (b :: rest) || Contains rest substr

/-- Whether a path element is kept by `filepath.Clean` when no ".." is
involved: it is neither empty nor ".". -/
def realElem (e : GoString) : Bool :=
  decide (¬ (e = [] ∨ e = str "."))

/-! ## The views of `pkg/ui/model.go`

The styling library is an input of the model: a style is the record of the
attributes the source sets on it, and `Render` (the library's
`Style.Render`) is a function from a style and a text to the styled text. -/

/-- A style of the styling library, as far as the source sets it up:
`lipgloss.NewStyle()` is the default record, and each builder call sets one
field. -/
structure Style where
  Bold : Bool := false
  Foreground : Option GoString := none
  Background : Option GoString := none
  PaddingLeft : Int := 0
  PaddingRight : Int := 0
  MarginBottom : Int := 0
  deriving DecidableEq, Repr

/-- `viewNameInput(m)`. -/
def viewNameInput (Render : Style → GoString → GoString) (m : Model) : GoString :=
  Render { MarginBottom := 1 } (str "Plugin Name:") ++ str "\n" ++
    m.pluginName ++ str "█" ++ str "\n\n" ++
    str "Enter the name of your Neovim plugin and press Enter"

/-- `viewDescriptionInput(m)`. -/
def viewDescriptionInput (Render : Style → GoString → GoString) (m : Model) : GoString :=
  Render { MarginBottom := 1 } (str "Plugin Description:") ++ str "\n" ++
    m.description ++ str "█" ++ str "\n\n" ++
    str "Enter a short description and press Enter"

/-- `viewConfirmScreen(m)`. -/
def viewConfirmScreen (Render : Style → GoString → GoString) (m : Model) : GoString :=
  let summary := str "Plugin Name: " ++ m.pluginName ++ str "\n" ++
    str "Description: " ++ m.description ++ str "\n\n" ++
    str "Is this correct? (y/n)"
  Render { MarginBottom := 1 } (str "Confirm Details:") ++ str "\n" ++ summary

/-- `viewDone(m)`. -/
def viewDone (Render : Style → GoString → GoString) (m : Model) : GoString :=
  match m.err with
  | some err =>
      Render { Foreground := some (str "#FF0000"), Bold := true }
          (str "✗ Error creating plugin:") ++ str "\n\n" ++
        err.Error
  | none =>
      Render { Foreground := some (str "#04B575"), Bold := true }
          (str "✓ Plugin created successfully!") ++ str "\n\n" ++
        str "Your new plugin has been created at:\n" ++
        str "./" ++ m.pluginName

/-- `Model.View()`. -/
def View (Render : Style → GoString → GoString) (m : Model) : GoString :=
  let titleStyle : Style :=
    { Bold := true, Foreground := some (str "#FAFAFA"), Background := some (str "#7D56F4"),
      PaddingLeft := 2, PaddingRight := 2, MarginBottom := 1 }
  let title := Render titleStyle (str "nvim-plugin: Neovim Plugin Generator")
  let content :=
    match m.status with
    | .nameInput => viewNameInput Render m
    | .descriptionInput => viewDescriptionInput Render m
    | .confirmScreen => viewConfirmScreen Render m
    | .done => viewDone Render m
  title ++ str "\n" ++ content ++ str "\n\nPress q to quit\n"

/-- A renderer that adds nothing to the text (no colours, no spacing). -/
def plainRender : Style → GoString → GoString := fun _ text => text

/-- Whether an operation is a call of `os.MkdirAll`. One call can create
several directories: the one its path names and that directory's missing
parents (see `mkdirAllDirs`). -/
def Op.isMkdirAll : Op → Bool
  | .MkdirAll _ _ => true
  | _ => false

/-- Whether an operation is a call of `os.WriteFile`. -/
def Op.isWriteFile : Op → Bool
  | .WriteFile _ _ _ => true
  | _ => false

/-- The directories one call `os.MkdirAll(path, perm)` can create: the
directory the path names and each of its parents, that is, the cleaned form
of every prefix of the path's elements, leaving out the working directory
(or the root) and the directories above it, which exist. A directory is
given by its cleaned elements. -/
def mkdirAllDirs (path : GoString) : List (List GoString) :=
  ((splitSlash path).inits.map fun pre =>
      (pre.foldl (pushElem (isRooted path)) []).reverse).filter
    fun d => !(d.all fun e => decide (e = str ".."))

/-- The directories the `os.MkdirAll` calls among some operations can create,
call by call. -/
def opsDirs : List Op → List (List GoString)
  | [] => []
  | .MkdirAll path _ :: rest => mkdirAllDirs path ++ opsDirs rest
  | .renderTemplateFile _ :: rest => opsDirs rest
  | .WriteFile _ _ _ :: rest => opsDirs rest

/-- The directories the operations of a trace can create, each listed once.
In an empty working directory in which every call succeeds, these are the
directories the run creates. -/
def createdDirs (tr : List Event) : List (List GoString) :=
  (opsDirs (tr.map Event.op)).dedup

/-- A model reached by typing "t", Enter, Enter and "y" with a generator
that fails. -/
def failedT : Model :=
  { status := .done, pluginName := [116], description := [], cursor := 0,
    err := some ⟨[120]⟩ }

/-- A model reached by typing "t", Enter and Enter: the confirmation screen
for the name "t" and an empty description. -/
def confirmT : Model :=
  { status := .confirmScreen, pluginName := [116], description := [], cursor := 0, err := none }

/-! ## The string literals of the source, as bytes -/

theorem str_enter : str "enter" = [101, 110, 116, 101, 114] := by decide

theorem str_backspace : str "backspace" = [98, 97, 99, 107, 115, 112, 97, 99, 101] := by decide

theorem str_ctrl_c : str "ctrl+c" = [99, 116, 114, 108, 43, 99] := by decide

theorem str_q : str "q" = [113] := by decide

theorem str_y : str "y" = [121] := by decide

theorem str_Y : str "Y" = [89] := by decide

theorem str_n : str "n" = [110] := by decide

theorem str_N : str "N" = [78] := by decide

/-! ## One call of `Update` -/

/-- A quit key ends the call before any handler is looked at. -/
theorem Update_of_isQuit (gen : Generator) (msg : Msg) (m : Model) (h : isQuit msg = true) :
    Update gen msg m = some ⟨m, .Quit, []⟩ := by
  simp [Update, h]

/-- Without a quit key, `Update` is the handler of the current screen. -/
theorem Update_of_not_isQuit (gen : Generator) (msg : Msg) (m : Model) (h : isQuit msg = false) :
    Update gen msg m =
      match m.status with
      | .nameInput => updateNameInput msg m
      | .descriptionInput => updateDescriptionInput msg m
      | .confirmScreen => updateConfirmScreen gen msg m
      | .done => some ⟨m, .nil, []⟩ := by
  simp [Update, h]

/-- Behind the guard `len(s) > 0` the slice `s[:len(s)-1]` is in range. -/
theorem sliceTo_pred (s : GoString) (h : 0 < s.length) :
    sliceTo s ((s.length : Int) - 1) = some (s.take (s.length - 1)) := by
  unfold sliceTo
  have h1 : (0 : Int) ≤ (s.length : Int) - 1 ∧ (s.length : Int) - 1 ≤ (s.length : Int) := by
    constructor <;> omega
  rw [if_pos h1]
  congr 2
  omega

/-- `Update` preserves: outside `nameInput` the plugin name is non-empty. -/
theorem Update_preserves_name (gen : Generator) (msg : Msg) (m : Model) (r : Step)
    (h : Update gen msg m = some r)
    (hinv : m.status ≠ .nameInput → m.pluginName ≠ []) :
    r.model.status ≠ .nameInput → r.model.pluginName ≠ [] := by
  unfold Update at h
  split_ifs at h with hq
  · simp only [Option.some.injEq] at h
    subst h
    exact hinv
  · cases hs : m.status <;> rw [hs] at h <;> simp only at h
    · cases msg with
      | other t =>
        simp only [updateNameInput, Option.some.injEq] at h
        subst h
        simpa using hinv
      | key k =>
        simp only [updateNameInput] at h
        split_ifs at h with h1 h2 h3 h4 h5
        all_goals first
          | (simp only [Option.some.injEq] at h
             subst h
             simp_all
             done)
          | skip
        · simp only [Option.some.injEq] at h
          subst h
          intro _ hnil
          simp only at hnil
          simp [hnil] at h2
        · rw [sliceTo_pred _ h4] at h
          simp only [Option.map_some', Option.some.injEq] at h
          subst h
          simp [hs]
    · cases msg with
      | other t =>
        simp only [updateDescriptionInput, Option.some.injEq] at h
        subst h
        simpa using hinv
      | key k =>
        simp only [updateDescriptionInput] at h
        split_ifs at h with h1 h2 h3 h4
        all_goals first
          | (simp only [Option.some.injEq] at h
             subst h
             simp_all)
          | skip
        rw [sliceTo_pred _ h3] at h
        simp only [Option.map_some', Option.some.injEq] at h
        subst h
        simpa [hs] using hinv
    · cases msg with
      | other t =>
        simp only [updateConfirmScreen, Option.some.injEq] at h
        subst h
        simpa using hinv
      | key k =>
        simp only [updateConfirmScreen] at h
        split_ifs at h with h1 h2
        all_goals first
          | (simp only [Option.some.injEq] at h
             subst h
             simp_all
             done)
          | skip
        simp only [Option.some.injEq] at h
        subst h
        cases gen m.pluginName m.description <;> simpa [hs] using hinv
    · simp only [Option.some.injEq] at h
      subst h
      simpa using hinv

/-- `Update` never panics: it returns for every message and model. -/
theorem Update_total (gen : Generator) (msg : Msg) (m : Model) :
    ∃ r, Update gen msg m = some r := by
  unfold Update
  split_ifs with hq
  · exact ⟨_, rfl⟩
  · cases m.status <;> simp only
    · cases msg with
      | other t => exact ⟨_, rfl⟩
      | key k =>
        simp only [updateNameInput]
        split_ifs with h1 h2 h3 h4 h5
        all_goals first
          | exact ⟨_, rfl⟩
          | (rw [sliceTo_pred _ h4]; exact ⟨_, rfl⟩)
    · cases msg with
      | other t => exact ⟨_, rfl⟩
      | key k =>
        simp only [updateDescriptionInput]
        split_ifs with h1 h2 h3 h4
        all_goals first
          | exact ⟨_, rfl⟩
          | (rw [sliceTo_pred _ h3]; exact ⟨_, rfl⟩)
    · cases msg with
      | other t => exact ⟨_, rfl⟩
      | key k =>
        simp only [updateConfirmScreen]
        split_ifs with h1 h2
        all_goals exact ⟨_, rfl⟩
    · exact ⟨_, rfl⟩

theorem typedT_reachable : Reachable typedT := by
  have h1 : Reachable { NewModel with pluginName := [116] } :=
    Reachable.step (fun _ _ => none) (.key ⟨.KeyRunes, [116], false, false⟩) NewModel
      ⟨{ NewModel with pluginName := [116] }, .nil, []⟩ Reachable.init (by decide)
  exact Reachable.step (fun _ _ => none) (.key ⟨KeyEnter, [], false, false⟩)
    { NewModel with pluginName := [116] } ⟨typedT, .nil, []⟩ h1 (by decide)

/-- On the confirmation screen a decline key only resets the status. -/
theorem Update_decline (gen : Generator) (m : Model) (k : KeyMsg)
    (hs : m.status = .confirmScreen) (hk : k.String = str "n" ∨ k.String = str "N") :
    Update gen (.key k) m
      = some ⟨⟨.nameInput, m.pluginName, m.description, m.cursor, m.err⟩, .nil, []⟩ := by
  have hq : isQuit (.key k) = false := by
    rcases hk with hk | hk <;> simp [isQuit, hk, str_n, str_N, str_ctrl_c, str_q]
  have hy : ¬ (k.String = str "y" ∨ k.String = str "Y") := by
    rcases hk with hk | hk <;> simp [hk, str_n, str_N, str_y, str_Y]
  rw [Update_of_not_isQuit gen _ m hq, hs]
  simp only [updateConfirmScreen, hk, hy, if_true, if_false]

/-- On an input screen a text key appends its runes to the screen's buffer. -/
theorem Update_textKey (gen : Generator) (m : Model) (k : KeyMsg) (hk : isTextKey k)
    (hm : m.status = .nameInput ∨ m.status = .descriptionInput) :
    Update gen (.key k) m = some ⟨withTyped m (runesToString k.Runes), .nil, []⟩ := by
  obtain ⟨ht, h1, h2, h3, h4⟩ := hk
  have hq : isQuit (.key k) = false := by
    simp [isQuit, h1, h2]
  rw [Update_of_not_isQuit gen _ m hq]
  rcases hm with hs | hs <;> rw [hs]
  · simp only [updateNameInput, withTyped, hs, h3, h4, ht, if_true, if_false]
  · simp only [updateDescriptionInput, withTyped, hs, h3, h4, ht, if_true, if_false]

/-- The status of `withTyped m s` is that of `m`. -/
theorem withTyped_status (m : Model) (s : GoString) : (withTyped m s).status = m.status := by
  unfold withTyped
  cases hs : m.status <;> simp [hs]

/-- Typing `s` and then `t` is typing `s ++ t`. -/
theorem withTyped_withTyped (m : Model) (s t : GoString) :
    withTyped (withTyped m s) t = withTyped m (s ++ t) := by
  unfold withTyped
  cases hs : m.status <;> simp [hs]

/-- Typing nothing changes nothing. -/
theorem withTyped_nil (m : Model) : withTyped m [] = m := by
  obtain ⟨st, n, d, c, e⟩ := m
  cases st <;> simp [withTyped]

/-- A sequence of text keys on an input screen appends all their runes. -/
theorem runUpdates_textKeys (l : List (Generator × KeyMsg)) (m : Model)
    (hl : ∀ p ∈ l, isTextKey p.2)
    (hm : m.status = .nameInput ∨ m.status = .descriptionInput) :
    runUpdates (l.map fun p => (p.1, Msg.key p.2)) m
      = some (withTyped m (l.map fun p => runesToString p.2.Runes).flatten, []) := by
  induction l generalizing m with
  | nil => simp [runUpdates, withTyped_nil]
  | cons p rest ih =>
    have hp : isTextKey p.2 := hl p (List.mem_cons_self _ _)
    have hrest : ∀ x ∈ rest, isTextKey x.2 := fun x hx => hl x (List.mem_cons_of_mem _ hx)
    have hm2 : (withTyped m (runesToString p.2.Runes)).status = .nameInput
        ∨ (withTyped m (runesToString p.2.Runes)).status = .descriptionInput := by
      rw [withTyped_status]; exact hm
    simp only [List.map_cons, runUpdates, Update_textKey p.1 m p.2 hp hm, ih _ hrest hm2,
      withTyped_withTyped, List.flatten_cons, List.nil_append]

/-! ## Typing and erasing single-byte characters -/

/-- A rune below 128 is encoded as the single byte of its value. -/
theorem encodeRune_ascii (c : Int) (h0 : 0 ≤ c) (h1 : c < 128) :
    encodeRune c = [c.toNat] := by
  unfold encodeRune
  have hc : ¬ (c < 0 ∨ 0x10FFFF < c ∨ (0xD800 ≤ c ∧ c ≤ 0xDFFF)) := by omega
  have hn : c.toNat < 0x80 := by omega
  simp only [if_neg hc, if_pos hn]

/-- Pressing a single-byte character on an input screen: the quit character
"q" changes nothing, any other one adds one byte to the screen's buffer. -/
theorem Update_pressRune (gen : Generator) (m : Model) (c : Int)
    (h0 : 0 ≤ c) (h1 : c < 128)
    (hm : m.status = .nameInput ∨ m.status = .descriptionInput) :
    ∃ r, Update gen (pressRune c) m = some r ∧ r.calls = []
      ∧ r.model.status = m.status
      ∧ (bufferOf r.model).length ≤ (bufferOf m).length + 1 := by
  have hS : (⟨.KeyRunes, [c], false, false⟩ : KeyMsg).String = [c.toNat] := by
    simp [KeyMsg.String, runesToString, encodeRune_ascii c h0 h1]
  by_cases hq : c.toNat = 113
  · refine ⟨⟨m, .Quit, []⟩, ?_, rfl, rfl, Nat.le_succ _⟩
    apply Update_of_isQuit
    simp [pressRune, isQuit, hS, hq, str_q]
  · have ht : isTextKey ⟨.KeyRunes, [c], false, false⟩ := by
      refine ⟨rfl, ?_, ?_, ?_, ?_⟩ <;>
        simp [hS, hq, str_ctrl_c, str_q, str_enter, str_backspace]
    refine ⟨_, Update_textKey gen m _ ht hm, rfl, withTyped_status _ _, ?_⟩
    rcases hm with hs | hs <;>
      simp [bufferOf, withTyped, hs, runesToString, encodeRune_ascii c h0 h1]

/-- Pressing Backspace on an input screen shortens the screen's buffer by one
byte (an empty buffer stays empty). -/
theorem Update_pressBackspace (gen : Generator) (m : Model)
    (hm : m.status = .nameInput ∨ m.status = .descriptionInput) :
    ∃ r, Update gen pressBackspace m = some r ∧ r.calls = []
      ∧ r.model.status = m.status
      ∧ (bufferOf r.model).length = (bufferOf m).length - 1 := by
  have hS : (⟨KeyBackspace, [], false, false⟩ : KeyMsg).String = str "backspace" := by
    decide
  have hq : isQuit pressBackspace = false := by decide
  have he : ¬ (str "backspace" = str "enter") := by decide
  rw [Update_of_not_isQuit gen _ m hq]
  rcases hm with hs | hs <;> rw [hs]
  · simp only [pressBackspace, updateNameInput, hS, he, if_true, if_false]
    by_cases hn : 0 < m.pluginName.length
    · rw [if_pos hn, sliceTo_pred _ hn]
      refine ⟨_, rfl, rfl, hs, ?_⟩
      simp [bufferOf, hs]
    · rw [if_neg hn]
      refine ⟨_, rfl, rfl, hs, ?_⟩
      simp only [bufferOf, hs]
      omega
  · simp only [pressBackspace, updateDescriptionInput, hS, he, if_true, if_false]
    by_cases hn : 0 < m.description.length
    · rw [if_pos hn, sliceTo_pred _ hn]
      refine ⟨_, rfl, rfl, hs, ?_⟩
      simp [bufferOf, hs]
    · rw [if_neg hn]
      refine ⟨_, rfl, rfl, hs, ?_⟩
      simp only [bufferOf, hs]
      omega

/-- Running two sequences of messages one after the other. -/
theorem runUpdates_append (l1 l2 : List (Generator × Msg)) (m m1 m2 : Model)
    (c1 c2 : List (GoString × GoString))
    (h1 : runUpdates l1 m = some (m1, c1)) (h2 : runUpdates l2 m1 = some (m2, c2)) :
    runUpdates (l1 ++ l2) m = some (m2, c1 ++ c2) := by
  induction l1 generalizing m c1 with
  | nil =>
    simp only [runUpdates, Option.some.injEq, Prod.mk.injEq] at h1
    obtain ⟨rfl, rfl⟩ := h1
    simpa using h2
  | cons p rest ih =>
    obtain ⟨gen, msg⟩ := p
    simp only [runUpdates, List.cons_append] at h1 ⊢
    cases hu : Update gen msg m with
    | none => simp [hu] at h1
    | some r =>
      simp only [hu] at h1 ⊢
      cases hr : runUpdates rest r.model with
      | none => simp [hr] at h1
      | some q =>
        obtain ⟨m3, c3⟩ := q
        simp only [hr, Option.some.injEq, Prod.mk.injEq] at h1
        obtain ⟨rfl, rfl⟩ := h1
        simp only [List.append_eq, ih r.model c3 hr, List.append_assoc]

/-- Typing single-byte characters on an input screen adds at most one byte
per character to the screen's buffer and keeps the status. -/
theorem runUpdates_pressRunes (l : List (Generator × Rune)) (m : Model)
    (hl : ∀ p ∈ l, 0 ≤ p.2 ∧ p.2 < 128)
    (hm : m.status = .nameInput ∨ m.status = .descriptionInput) :
    ∃ m2, runUpdates (l.map fun p => (p.1, pressRune p.2)) m = some (m2, [])
      ∧ m2.status = m.status
      ∧ (bufferOf m2).length ≤ (bufferOf m).length + l.length := by
  induction l generalizing m with
  | nil => exact ⟨m, rfl, rfl, Nat.le_refl _⟩
  | cons p rest ih =>
    obtain ⟨h0, h1⟩ := hl p (List.mem_cons_self _ _)
    obtain ⟨r, hu, hc, hst, hlen⟩ := Update_pressRune p.1 m p.2 h0 h1 hm
    obtain ⟨m2, hrun, hst2, hlen2⟩ :=
      ih r.model (fun x hx => hl x (List.mem_cons_of_mem _ hx)) (by rw [hst]; exact hm)
    refine ⟨m2, ?_, hst2.trans hst, ?_⟩
    · simp only [List.map_cons, runUpdates, hu, hrun, hc, List.append_nil]
    · simp only [List.length_cons]
      omega

/-- Pressing Backspace `n` times on an input screen removes `n` bytes from
the screen's buffer (or all of them) and keeps the status. -/
theorem runUpdates_pressBackspaces (gs : List Generator) (m : Model)
    (hm : m.status = .nameInput ∨ m.status = .descriptionInput) :
    ∃ m2, runUpdates (gs.map fun g => (g, pressBackspace)) m = some (m2, [])
      ∧ m2.status = m.status
      ∧ (bufferOf m2).length = (bufferOf m).length - gs.length := by
  induction gs generalizing m with
  | nil => exact ⟨m, rfl, rfl, rfl⟩
  | cons g rest ih =>
    obtain ⟨r, hu, hc, hst, hlen⟩ := Update_pressBackspace g m hm
    obtain ⟨m2, hrun, hst2, hlen2⟩ := ih r.model (by rw [hst]; exact hm)
    refine ⟨m2, ?_, hst2.trans hst, ?_⟩
    · simp only [List.map_cons, runUpdates, hu, hrun, hc, List.append_nil]
    · simp only [List.length_cons]
      omega

/-- The round trip on single-byte characters: typing `n` of them into an
empty buffer of an input screen and pressing Backspace `n` times leaves the
buffer empty and the status unchanged. -/
theorem roundtrip_single_byte (l : List (Generator × Rune)) (gs : List Generator) (m : Model)
    (hl : ∀ p ∈ l, 0 ≤ p.2 ∧ p.2 < 128) (hn : gs.length = l.length)
    (hm : m.status = .nameInput ∨ m.status = .descriptionInput)
    (hb : bufferOf m = []) :
    ∃ m2, runUpdates ((l.map fun p => (p.1, pressRune p.2))
            ++ gs.map fun g => (g, pressBackspace)) m = some (m2, [])
      ∧ m2.status = m.status ∧ bufferOf m2 = [] := by
  obtain ⟨m1, h1, hs1, hlen1⟩ := runUpdates_pressRunes l m hl hm
  obtain ⟨m2, h2, hs2, hlen2⟩ := runUpdates_pressBackspaces gs m1 (by rw [hs1]; exact hm)
  refine ⟨m2, ?_, hs2.trans hs1, ?_⟩
  · simpa using runUpdates_append _ _ m m1 m2 [] [] h1 h2
  · apply List.eq_nil_of_length_eq_zero
    rw [hlen2]
    simp only [hb, List.length_nil, Nat.zero_add] at hlen1
    omega

/-! ## The claims -/

/-- C1: in every Model reachable from `NewModel()` by a finite sequence of
`Update` messages, whatever `GeneratePlugin` returns, a status other than
`nameInput` implies that `pluginName` is non-empty. -/
theorem C1_name_nonempty_after_nameInput (m : Model) (hr : Reachable m)
    (hs : m.status ≠ .nameInput) : m.pluginName ≠ [] := by
  have key : ∀ x, Reachable x → x.status ≠ .nameInput → x.pluginName ≠ [] := by
    intro x hx
    induction hx with
    | init => intro h; exact absurd rfl h
    | step gen msg y r _ hu ih => exact Update_preserves_name gen msg y r hu ih
  exact key m hr hs

theorem C1_name_nonempty_after_nameInput_witness :
    Reachable typedT ∧ typedT.status ≠ .nameInput ∧ typedT.pluginName ≠ [] :=
  ⟨typedT_reachable, by decide,
    C1_name_nonempty_after_nameInput typedT typedT_reachable (by decide)⟩

/-- C2: in `nameInput`, `Update` with a key rendering as "enter" returns
status `descriptionInput` exactly when `pluginName` is non-empty; with an
empty `pluginName` the returned model is `m` itself; in both cases
`pluginName`, `description`, `cursor` and `err` are unchanged, the command is
nil and the generator is not called. -/
theorem C2_enter_in_nameInput (gen : Generator) (m : Model) (k : KeyMsg)
    (hs : m.status = .nameInput) (hk : k.String = str "enter") :
    ∃ r, Update gen (.key k) m = some r
      ∧ (r.model.status = .descriptionInput ↔ m.pluginName ≠ [])
      ∧ (m.pluginName = [] → r.model = m)
      ∧ r.model.pluginName = m.pluginName ∧ r.model.description = m.description
      ∧ r.model.cursor = m.cursor ∧ r.model.err = m.err
      ∧ r.cmd = .nil ∧ r.calls = [] := by
  have hq : isQuit (.key k) = false := by
    simp [isQuit, hk, str_enter, str_ctrl_c, str_q]
  rw [Update_of_not_isQuit gen _ m hq, hs]
  simp only [updateNameInput, hk, if_true]
  by_cases hn : 0 < m.pluginName.length
  · rw [if_pos hn]
    refine ⟨_, rfl, ?_, ?_, rfl, rfl, rfl, rfl, rfl, rfl⟩
    · simp only [true_iff]
      intro h0
      simp [h0] at hn
    · intro h0
      simp [h0] at hn
  · rw [if_neg hn]
    have h0 : m.pluginName = [] := by
      cases hp : m.pluginName with
      | nil => rfl
      | cons a l => simp [hp] at hn
    refine ⟨_, rfl, ?_, fun _ => rfl, rfl, rfl, rfl, rfl, rfl, rfl⟩
    simp [h0, hs]

theorem C2_enter_in_nameInput_witness :
    ∃ r, Update (fun _ _ => none) (.key ⟨KeyEnter, [], false, false⟩) NewModel = some r
      ∧ (r.model.status = .descriptionInput ↔ NewModel.pluginName ≠ [])
      ∧ (NewModel.pluginName = [] → r.model = NewModel)
      ∧ r.model.pluginName = NewModel.pluginName ∧ r.model.description = NewModel.description
      ∧ r.model.cursor = NewModel.cursor ∧ r.model.err = NewModel.err
      ∧ r.cmd = .nil ∧ r.calls = [] :=
  C2_enter_in_nameInput (fun _ _ => none) NewModel ⟨KeyEnter, [], false, false⟩ rfl (by decide)

/-- C3: in every status and with any buffer contents, `Update` with a key
rendering as "q" or "ctrl+c" returns `m` unchanged together with `tea.Quit`;
no handler runs: `GeneratePlugin` is not called and no buffer is edited. -/
theorem C3_quit_key_wins (gen : Generator) (m : Model) (k : KeyMsg)
    (hk : k.String = str "q" ∨ k.String = str "ctrl+c") :
    Update gen (.key k) m = some ⟨m, .Quit, []⟩ := by
  apply Update_of_isQuit
  rcases hk with hk | hk <;> simp [isQuit, hk]

theorem C3_quit_key_wins_witness :
    Update (fun _ _ => some ⟨[]⟩) (.key ⟨.KeyRunes, [113], false, false⟩)
        ⟨.confirmScreen, [97], [98], 0, none⟩
      = some ⟨⟨.confirmScreen, [97], [98], 0, none⟩, .Quit, []⟩ :=
  C3_quit_key_wins (fun _ _ => some ⟨[]⟩) ⟨.confirmScreen, [97], [98], 0, none⟩
    ⟨.KeyRunes, [113], false, false⟩ (Or.inl (by decide))

/-- C4: the status after `Update` is the status before, or is reached along
one of four edges: `nameInput` to `descriptionInput`, `descriptionInput` to
`confirmScreen`, `confirmScreen` to `done`, `confirmScreen` to `nameInput`,
the last one only for a key rendering as "n" or "N"; and each of the four
edges is taken by some message. -/
theorem C4_status_edges :
    (∀ (gen : Generator) (msg : Msg) (m : Model),
      ∃ r, Update gen msg m = some r ∧
        (r.model.status = m.status
          ∨ (m.status = .nameInput ∧ r.model.status = .descriptionInput)
          ∨ (m.status = .descriptionInput ∧ r.model.status = .confirmScreen)
          ∨ (m.status = .confirmScreen ∧ r.model.status = .done)
          ∨ (m.status = .confirmScreen ∧ r.model.status = .nameInput
              ∧ ∃ k, msg = .key k ∧ (k.String = str "n" ∨ k.String = str "N"))))
    ∧ (∃ gen msg m r, Update gen msg m = some r
          ∧ m.status = .nameInput ∧ r.model.status = .descriptionInput)
    ∧ (∃ gen msg m r, Update gen msg m = some r
          ∧ m.status = .descriptionInput ∧ r.model.status = .confirmScreen)
    ∧ (∃ gen msg m r, Update gen msg m = some r
          ∧ m.status = .confirmScreen ∧ r.model.status = .done)
    ∧ (∃ gen msg m r, Update gen msg m = some r
          ∧ m.status = .confirmScreen ∧ r.model.status = .nameInput) := by
  refine ⟨?_, ?_, ?_, ?_, ?_⟩
  · intro gen msg m
    obtain ⟨r, h⟩ := Update_total gen msg m
    refine ⟨r, h, ?_⟩
    unfold Update at h
    split_ifs at h with hq
    · simp only [Option.some.injEq] at h
      subst h
      exact Or.inl rfl
    · cases hs : m.status <;> rw [hs] at h <;> simp only at h
      · cases msg with
        | other t =>
          simp only [updateNameInput, Option.some.injEq] at h
          subst h
          exact Or.inl hs
        | key k =>
          simp only [updateNameInput] at h
          split_ifs at h with h1 h2 h3 h4 h5
          · simp only [Option.some.injEq] at h
            subst h
            exact Or.inr (Or.inl ⟨rfl, rfl⟩)
          · simp only [Option.some.injEq] at h
            subst h
            exact Or.inl hs
          · rw [sliceTo_pred _ h4] at h
            simp only [Option.map_some', Option.some.injEq] at h
            subst h
            exact Or.inl hs
          · simp only [Option.some.injEq] at h
            subst h
            exact Or.inl hs
          · simp only [Option.some.injEq] at h
            subst h
            exact Or.inl hs
          · simp only [Option.some.injEq] at h
            subst h
            exact Or.inl hs
      · cases msg with
        | other t =>
          simp only [updateDescriptionInput, Option.some.injEq] at h
          subst h
          exact Or.inl hs
        | key k =>
          simp only [updateDescriptionInput] at h
          split_ifs at h with h1 h2 h3 h4
          · simp only [Option.some.injEq] at h
            subst h
            exact Or.inr (Or.inr (Or.inl ⟨rfl, rfl⟩))
          · rw [sliceTo_pred _ h3] at h
            simp only [Option.map_some', Option.some.injEq] at h
            subst h
            exact Or.inl hs
          · simp only [Option.some.injEq] at h
            subst h
            exact Or.inl hs
          · simp only [Option.some.injEq] at h
            subst h
            exact Or.inl hs
          · simp only [Option.some.injEq] at h
            subst h
            exact Or.inl hs
      · cases msg with
        | other t =>
          simp only [updateConfirmScreen, Option.some.injEq] at h
          subst h
          exact Or.inl hs
        | key k =>
          simp only [updateConfirmScreen] at h
          split_ifs at h with h1 h2
          · simp only [Option.some.injEq] at h
            subst h
            exact Or.inr (Or.inr (Or.inr (Or.inl ⟨rfl, rfl⟩)))
          · simp only [Option.some.injEq] at h
            subst h
            exact Or.inr (Or.inr (Or.inr (Or.inr ⟨rfl, rfl, k, rfl, h2⟩)))
          · simp only [Option.some.injEq] at h
            subst h
            exact Or.inl hs
      · simp only [Option.some.injEq] at h
        subst h
        exact Or.inl hs
  · exact ⟨fun _ _ => none, .key ⟨KeyEnter, [], false, false⟩,
      ⟨.nameInput, [116], [], 0, none⟩, _, rfl, rfl, rfl⟩
  · exact ⟨fun _ _ => none, .key ⟨KeyEnter, [], false, false⟩,
      ⟨.descriptionInput, [116], [], 0, none⟩, _, rfl, rfl, rfl⟩
  · exact ⟨fun _ _ => none, .key ⟨.KeyRunes, [121], false, false⟩,
      ⟨.confirmScreen, [116], [], 0, none⟩, _, rfl, rfl, rfl⟩
  · exact ⟨fun _ _ => none, .key ⟨.KeyRunes, [110], false, false⟩,
      ⟨.confirmScreen, [116], [], 0, none⟩, _, rfl, rfl, rfl⟩

/-- On the confirmation screen an accept key calls the generator once, on the
two buffers, and moves to `done`; the generator's error is stored when there
is one, and `err` is left as it is otherwise. -/
theorem Update_accept (gen : Generator) (m : Model) (k : KeyMsg)
    (hs : m.status = .confirmScreen) (hk : k.String = str "y" ∨ k.String = str "Y") :
    ∃ r, Update gen (.key k) m = some r
      ∧ r.calls = [(m.pluginName, m.description)]
      ∧ r.model.status = .done
      ∧ r.model.pluginName = m.pluginName ∧ r.model.description = m.description
      ∧ r.model.cursor = m.cursor ∧ r.cmd = .nil
      ∧ (∀ e, gen m.pluginName m.description = some e → r.model.err = some e)
      ∧ (gen m.pluginName m.description = none → r.model.err = m.err) := by
  have hq : isQuit (.key k) = false := by
    rcases hk with hk | hk <;> simp [isQuit, hk, str_y, str_Y, str_ctrl_c, str_q]
  rw [Update_of_not_isQuit gen _ m hq, hs]
  simp only [updateConfirmScreen, hk, if_true]
  refine ⟨_, rfl, rfl, rfl, ?_, ?_, ?_, rfl, ?_, ?_⟩
  all_goals cases hg : gen m.pluginName m.description <;> simp

/-- C6: in `confirmScreen`, `Update` with a key rendering as "n" or "N"
returns the model `m` with status `nameInput` and nothing else changed
(`pluginName`, `description`, `cursor` and `err` are those of `m`), a nil
command, and no call of the generator. -/
theorem C6_decline_keeps_buffers (gen : Generator) (m : Model) (k : KeyMsg)
    (hs : m.status = .confirmScreen) (hk : k.String = str "n" ∨ k.String = str "N") :
    Update gen (.key k) m
      = some ⟨⟨.nameInput, m.pluginName, m.description, m.cursor, m.err⟩, .nil, []⟩ :=
  Update_decline gen m k hs hk

theorem C6_decline_keeps_buffers_witness :
    Update (fun _ _ => some ⟨[120]⟩) (.key ⟨.KeyRunes, [78], false, false⟩)
        ⟨.confirmScreen, [97], [98], 3, some ⟨[120]⟩⟩
      = some ⟨⟨.nameInput, [97], [98], 3, some ⟨[120]⟩⟩, .nil, []⟩ :=
  C6_decline_keeps_buffers (fun _ _ => some ⟨[120]⟩) ⟨.confirmScreen, [97], [98], 3, some ⟨[120]⟩⟩
    ⟨.KeyRunes, [78], false, false⟩ rfl (Or.inr (by decide))

/-- C7, as the code has it: in `confirmScreen`, a key rendering as "n" or
"N" returns to `nameInput` with both buffers retained, and text typed
afterwards is appended to the retained name: after the decline key and a
text key, `pluginName` is the old name followed by the typed runes and
`description` is the old description. -/
theorem C7_decline_retains_buffers (g1 g2 : Generator) (m : Model) (k k2 : KeyMsg)
    (hs : m.status = .confirmScreen) (hk : k.String = str "n" ∨ k.String = str "N")
    (hk2 : isTextKey k2) :
    (∃ r, Update g1 (.key k) m = some r ∧ r.model.status = .nameInput
        ∧ r.model.pluginName = m.pluginName ∧ r.model.description = m.description)
    ∧ runUpdates [(g1, .key k), (g2, .key k2)] m
        = some (⟨.nameInput, m.pluginName ++ runesToString k2.Runes, m.description,
            m.cursor, m.err⟩, []) := by
  constructor
  · exact ⟨_, Update_decline g1 m k hs hk, rfl, rfl, rfl⟩
  · simp only [runUpdates, Update_decline g1 m k hs hk]
    rw [Update_textKey g2 _ k2 hk2 (Or.inl rfl)]
    simp [withTyped]

theorem C7_decline_retains_buffers_witness :
    (∃ r, Update (fun _ _ => none) (.key ⟨.KeyRunes, [110], false, false⟩)
          ⟨.confirmScreen, [97], [98], 0, none⟩ = some r ∧ r.model.status = .nameInput
        ∧ r.model.pluginName = [97] ∧ r.model.description = [98])
    ∧ runUpdates [((fun _ _ => none), .key ⟨.KeyRunes, [110], false, false⟩),
          ((fun _ _ => none), .key ⟨.KeyRunes, [99], false, false⟩)]
          ⟨.confirmScreen, [97], [98], 0, none⟩
        = some (⟨.nameInput, [97] ++ runesToString [99], [98], 0, none⟩, []) :=
  C7_decline_retains_buffers (fun _ _ => none) (fun _ _ => none)
    ⟨.confirmScreen, [97], [98], 0, none⟩ ⟨.KeyRunes, [110], false, false⟩
    ⟨.KeyRunes, [99], false, false⟩ rfl (Or.inl (by decide)) (by decide)

/-- C7 as stated fails: declining on the confirmation screen of a model with
name "a" and description "b" returns to `nameInput` with both buffers still
holding their text. -/
theorem C7_buffers_not_cleared_counterexample :
    ∃ r, Update (fun _ _ => none) (.key ⟨.KeyRunes, [110], false, false⟩)
        ⟨.confirmScreen, [97], [98], 0, none⟩ = some r
      ∧ r.model.status = .nameInput
      ∧ r.model.pluginName ≠ [] ∧ r.model.description ≠ [] :=
  ⟨_, rfl, rfl, by decide, by decide⟩

/-- C8: `done` is terminal. On a model with status `done`, `Update` returns
the model unchanged, with a nil command for every message that is not a quit
key and with `tea.Quit` for a quit key, without calling the generator; hence
every sequence of messages leaves the model (status, `pluginName`,
`description`, `err`) as it is and makes no generator call. -/
theorem C8_done_is_terminal (m : Model) (hs : m.status = .done) :
    (∀ (gen : Generator) (msg : Msg), isQuit msg = false →
        Update gen msg m = some ⟨m, .nil, []⟩)
    ∧ (∀ (gen : Generator) (msg : Msg), isQuit msg = true →
        Update gen msg m = some ⟨m, .Quit, []⟩)
    ∧ (∀ l : List (Generator × Msg), runUpdates l m = some (m, [])) := by
  have h1 : ∀ (gen : Generator) (msg : Msg), isQuit msg = false →
      Update gen msg m = some ⟨m, .nil, []⟩ := by
    intro gen msg hq
    rw [Update_of_not_isQuit gen msg m hq, hs]
  refine ⟨h1, fun gen msg hq => Update_of_isQuit gen msg m hq, ?_⟩
  intro l
  induction l with
  | nil => rfl
  | cons p rest ih =>
    obtain ⟨gen, msg⟩ := p
    cases hq : isQuit msg
    · simp only [runUpdates, h1 gen msg hq, ih, List.append_nil]
    · simp only [runUpdates, Update_of_isQuit gen msg m hq, ih, List.append_nil]

theorem C8_done_is_terminal_witness :
    (∀ (gen : Generator) (msg : Msg), isQuit msg = false →
        Update gen msg ⟨.done, [97], [98], 0, some ⟨[120]⟩⟩
          = some ⟨⟨.done, [97], [98], 0, some ⟨[120]⟩⟩, .nil, []⟩)
    ∧ (∀ (gen : Generator) (msg : Msg), isQuit msg = true →
        Update gen msg ⟨.done, [97], [98], 0, some ⟨[120]⟩⟩
          = some ⟨⟨.done, [97], [98], 0, some ⟨[120]⟩⟩, .Quit, []⟩)
    ∧ (∀ l : List (Generator × Msg),
        runUpdates l ⟨.done, [97], [98], 0, some ⟨[120]⟩⟩
          = some (⟨.done, [97], [98], 0, some ⟨[120]⟩⟩, [])) :=
  C8_done_is_terminal ⟨.done, [97], [98], 0, some ⟨[120]⟩⟩ rfl

/-- C9, as the code has it: on an input screen (`nameInput` or
`descriptionInput`), `Update` with a `KeyRunes` key that renders as none of
"ctrl+c", "q", "enter", "backspace" appends the key's runes to the buffer of
that screen (`pluginName` in `nameInput`, `description` in
`descriptionInput`) and leaves status, the other buffer, `cursor` and `err`
unchanged; consequently a sequence of such keys appends the concatenation of
their runes, in order. -/
theorem C9_text_key_appends (gen : Generator) (k : KeyMsg) (l : List (Generator × KeyMsg))
    (m : Model) (hk : isTextKey k) (hl : ∀ p ∈ l, isTextKey p.2) :
    (m.status = .nameInput →
      Update gen (.key k) m
          = some ⟨⟨.nameInput, m.pluginName ++ runesToString k.Runes, m.description,
              m.cursor, m.err⟩, .nil, []⟩
        ∧ runUpdates (l.map fun p => (p.1, Msg.key p.2)) m
          = some (⟨.nameInput,
              m.pluginName ++ (l.map fun p => runesToString p.2.Runes).flatten,
              m.description, m.cursor, m.err⟩, []))
    ∧ (m.status = .descriptionInput →
      Update gen (.key k) m
          = some ⟨⟨.descriptionInput, m.pluginName,
              m.description ++ runesToString k.Runes, m.cursor, m.err⟩, .nil, []⟩
        ∧ runUpdates (l.map fun p => (p.1, Msg.key p.2)) m
          = some (⟨.descriptionInput, m.pluginName,
              m.description ++ (l.map fun p => runesToString p.2.Runes).flatten,
              m.cursor, m.err⟩, [])) := by
  constructor
  · intro hs
    rw [Update_textKey gen m k hk (Or.inl hs), runUpdates_textKeys l m hl (Or.inl hs)]
    simp [withTyped, hs]
  · intro hs
    rw [Update_textKey gen m k hk (Or.inr hs), runUpdates_textKeys l m hl (Or.inr hs)]
    simp [withTyped, hs]

theorem C9_text_key_appends_witness :
    Update (fun _ _ => none) (.key ⟨.KeyRunes, [116], false, false⟩) NewModel
        = some ⟨⟨.nameInput, [] ++ runesToString [116], [], 0, none⟩, .nil, []⟩
      ∧ runUpdates
          ([((fun _ _ => none), (⟨.KeyRunes, [116], false, false⟩ : KeyMsg)),
            ((fun _ _ => none), (⟨.KeyRunes, [101], true, false⟩ : KeyMsg))].map
              fun p => (p.1, Msg.key p.2))
          NewModel
        = some (⟨.nameInput,
            [] ++ ([((fun _ _ => none), (⟨.KeyRunes, [116], false, false⟩ : KeyMsg)),
              ((fun _ _ => none), (⟨.KeyRunes, [101], true, false⟩ : KeyMsg))].map
                fun (p : Generator × KeyMsg) => runesToString p.2.Runes).flatten,
            [], 0, none⟩, []) :=
  (C9_text_key_appends (fun _ _ => none) ⟨.KeyRunes, [116], false, false⟩
    [((fun _ _ => none), ⟨.KeyRunes, [116], false, false⟩),
      ((fun _ _ => none), ⟨.KeyRunes, [101], true, false⟩)]
    NewModel (by decide) (by decide)).1 rfl

/-- C9 as stated fails: the `KeyRunes` key carrying the rune "q", pressed on
the name screen, is the quit key; nothing is appended to `pluginName`. -/
theorem C9_quit_rune_counterexample :
    ∃ r, Update (fun _ _ => none) (.key ⟨.KeyRunes, [113], false, false⟩) NewModel = some r
      ∧ r.model.pluginName ≠ NewModel.pluginName ++ runesToString [113]
      ∧ r.model.pluginName = NewModel.pluginName
      ∧ r.cmd = .Quit :=
  ⟨_, rfl, by decide, rfl, rfl⟩

/-- C10 at a two-byte character: typing U+00E9 into the empty name buffer of
`NewModel()` and pressing Backspace once leaves the single byte 0xC3 in
`pluginName`, not the empty string. -/
theorem C10_multibyte_roundtrip_leaves_byte :
    runUpdates
        [((fun _ _ => none), .key ⟨.KeyRunes, [0xE9], false, false⟩),
          ((fun _ _ => none), .key ⟨KeyBackspace, [], false, false⟩)]
        NewModel
      = some (⟨.nameInput, [0xC3], [], 0, none⟩, []) := by
  decide

/-! ## Backspace, Enter on the description screen, unrecognised events -/

/-- A key rendering as "backspace" on an input screen never panics: it drops
the last byte of the screen's buffer and changes nothing else. -/
theorem Update_backspaceKey (gen : Generator) (m : Model) (k : KeyMsg)
    (hk : k.String = str "backspace") :
    (m.status = .nameInput →
      Update gen (.key k) m
        = some ⟨⟨.nameInput, m.pluginName.dropLast, m.description, m.cursor, m.err⟩, .nil, []⟩)
    ∧ (m.status = .descriptionInput →
      Update gen (.key k) m
        = some ⟨⟨.descriptionInput, m.pluginName, m.description.dropLast, m.cursor, m.err⟩,
            .nil, []⟩) := by
  have hq : isQuit (.key k) = false := by
    simp [isQuit, hk, str_backspace, str_ctrl_c, str_q]
  have he : ¬ (str "backspace" = str "enter") := by decide
  obtain ⟨st, n, d, c, e⟩ := m
  constructor
  · intro hs
    simp only at hs
    subst hs
    rw [Update_of_not_isQuit gen _ _ hq]
    simp only [updateNameInput, hk, he, if_true, if_false]
    by_cases hn : 0 < n.length
    · rw [if_pos hn, sliceTo_pred _ hn]
      simp [List.dropLast_eq_take]
    · rw [if_neg hn]
      have h0 : n = [] := List.eq_nil_of_length_eq_zero (by omega)
      subst h0
      rfl
  · intro hs
    simp only at hs
    subst hs
    rw [Update_of_not_isQuit gen _ _ hq]
    simp only [updateDescriptionInput, hk, he, if_true, if_false]
    by_cases hn : 0 < d.length
    · rw [if_pos hn, sliceTo_pred _ hn]
      simp [List.dropLast_eq_take]
    · rw [if_neg hn]
      have h0 : d = [] := List.eq_nil_of_length_eq_zero (by omega)
      subst h0
      rfl

/-- C11 at a two-byte character: on the name screen with `pluginName` holding
the single character U+00E9 (bytes 0xC3 0xA9), Backspace returns a model whose
`pluginName` is the stray byte 0xC3, not the buffer without its last
character (the empty string). -/
theorem C11_backspace_splits_character :
    Update (fun _ _ => none) pressBackspace ⟨.nameInput, runesToString [0xE9], [], 0, none⟩
        = some ⟨⟨.nameInput, [0xC3], [], 0, none⟩, .nil, []⟩
      ∧ ([0xC3] : GoString) ≠ runesToString [] := by
  decide

/-- C12: in `descriptionInput`, `Update` with a key rendering as "enter"
returns status `confirmScreen` whatever the description holds, with
`pluginName`, `description`, `cursor` and `err` unchanged, a nil command and
no generator call. -/
theorem C12_enter_in_descriptionInput (gen : Generator) (m : Model) (k : KeyMsg)
    (hs : m.status = .descriptionInput) (hk : k.String = str "enter") :
    Update gen (.key k) m
      = some ⟨⟨.confirmScreen, m.pluginName, m.description, m.cursor, m.err⟩, .nil, []⟩ := by
  have hq : isQuit (.key k) = false := by
    simp [isQuit, hk, str_enter, str_ctrl_c, str_q]
  rw [Update_of_not_isQuit gen _ m hq, hs]
  simp only [updateDescriptionInput, hk, if_true]

theorem C12_enter_in_descriptionInput_witness :
    Update (fun _ _ => none) (.key ⟨KeyEnter, [], false, false⟩)
        ⟨.descriptionInput, [97], [], 0, none⟩
      = some ⟨⟨.confirmScreen, [97], [], 0, none⟩, .nil, []⟩ :=
  C12_enter_in_descriptionInput (fun _ _ => none) ⟨.descriptionInput, [97], [], 0, none⟩
    ⟨KeyEnter, [], false, false⟩ rfl (by decide)

/-- C13: a message that is not a recognised event of the model's screen
(in particular every message that is not a key message) is a no-op: `Update`
returns the model itself, equal in every field, with a nil command and no
generator call. -/
theorem C13_unrecognized_is_noop (gen : Generator) (m : Model) (msg : Msg)
    (h : recognized m msg = false) :
    Update gen msg m = some ⟨m, .nil, []⟩ := by
  cases msg with
  | other t =>
    rw [Update_of_not_isQuit gen (.other t) m rfl]
    cases m.status <;> rfl
  | key k =>
    simp only [recognized, Bool.or_eq_false_iff, decide_eq_false_iff_not, not_or] at h
    obtain ⟨⟨h1, h2⟩, h3⟩ := h
    have hq : isQuit (.key k) = false := by
      simp [isQuit, h1, h2]
    rw [Update_of_not_isQuit gen _ m hq]
    cases hs : m.status <;> simp only [hs, decide_eq_false_iff_not, not_or] at h3 ⊢
    · obtain ⟨h4, h5, h6⟩ := h3
      simp only [updateNameInput, h4, h5, h6, if_false]
    · obtain ⟨h4, h5, h6⟩ := h3
      simp only [updateDescriptionInput, h4, h5, h6, if_false]
    · obtain ⟨h4, h5, h6, h7⟩ := h3
      simp only [updateConfirmScreen, h4, h5, h6, h7, or_self, if_false]

theorem C13_unrecognized_is_noop_witness :
    Update (fun _ _ => some ⟨[120]⟩) (.key ⟨.named [116, 97, 98], [], false, false⟩)
        ⟨.confirmScreen, [97], [98], 0, none⟩
      = some ⟨⟨.confirmScreen, [97], [98], 0, none⟩, .nil, []⟩ :=
  C13_unrecognized_is_noop (fun _ _ => some ⟨[120]⟩) ⟨.confirmScreen, [97], [98], 0, none⟩
    (.key ⟨.named [116, 97, 98], [], false, false⟩) (by decide)

/-! ## The template variables -/

/-- Replacing the one-byte pattern "-" by "_" maps every byte on its own. -/
theorem replaceFrom_hyphen (s : GoString) :
    replaceFrom [45] [95] 0 s = s.map fun b => if b = 45 then 95 else b := by
  induction s with
  | nil => rfl
  | cons b rest ih =>
    by_cases hb : b = 45
    · subst hb
      simp [replaceFrom, List.isPrefixOf, ih]
    · have hb2 : ¬ (45 = b) := fun h => hb h.symm
      simp [replaceFrom, List.isPrefixOf, ih, hb, hb2]

/-- `sanitizeVarName` maps every byte on its own: a hyphen to an underscore,
any other byte to itself. -/
theorem sanitizeVarName_eq_map (s : GoString) :
    sanitizeVarName s = s.map fun b => if b = 45 then 95 else b := by
  have h1 : str "-" = [45] := by decide
  have h2 : str "_" = [95] := by decide
  rw [sanitizeVarName, ReplaceAll, h1, h2, replaceFrom_hyphen]

/-- `strings.Repeat` of the one-byte string "=". -/
theorem Repeat_eq (n : Nat) : Repeat (str "=") n = List.replicate n 61 := by
  have h1 : str "=" = [61] := by decide
  rw [Repeat, h1]
  induction n with
  | zero => rfl
  | succ k ih => simp [List.replicate_succ, ih]

/-- C14: `sanitizeVarName(s)` has the length of `s`, contains no hyphen
(byte 45), has at every position an underscore (byte 95) where `s` has a
hyphen and the byte of `s` elsewhere; for `s` without hyphens it is `s`. -/
theorem C14_sanitizeVarName_replaces_hyphens (s : GoString) :
    (sanitizeVarName s).length = s.length
      ∧ 45 ∉ sanitizeVarName s
      ∧ (∀ (i b : Nat), s[i]? = some b →
          (sanitizeVarName s)[i]? = some (if b = 45 then 95 else b))
      ∧ (45 ∉ s → sanitizeVarName s = s) := by
  rw [sanitizeVarName_eq_map]
  refine ⟨by simp, ?_, ?_, ?_⟩
  · intro h
    obtain ⟨b, _, hb⟩ := List.mem_map.mp h
    by_cases h45 : b = 45
    · simp [h45] at hb
    · simp only [if_neg h45] at hb
      exact h45 hb
  · intro i b hib
    simp [List.getElem?_map, hib]
  · intro h
    conv_rhs => rw [← List.map_id s]
    apply List.map_congr_left
    intro b hb
    have h45 : b ≠ 45 := fun e => h (e ▸ hb)
    simp [h45]

/-- C15 at the name "my.plugin": `sanitizeVarName` returns it unchanged, with
the dot (a byte that is no letter, digit or underscore) still in it. -/
theorem C15_dot_survives_sanitizeVarName :
    sanitizeVarName (str "my.plugin") = str "my.plugin"
      ∧ 46 ∈ sanitizeVarName (str "my.plugin")
      ∧ isNameByte 46 = false := by
  decide

/-- `capitalizeFirst` of the empty string is the empty string. -/
theorem capitalizeFirst_nil (ToUpper : GoString → GoString) :
    capitalizeFirst ToUpper [] = [] := rfl

/-- `capitalizeFirst` of a non-empty string upper-cases its first byte, taken
alone, and appends the bytes after it. -/
theorem capitalizeFirst_cons (ToUpper : GoString → GoString) (b : Nat) (rest : GoString) :
    capitalizeFirst ToUpper (b :: rest) = ToUpper [b] ++ rest := by
  simp [capitalizeFirst]

/-- C16 at a name starting with a two-byte character: for the string made of
U+00E9 and "l" (bytes 0xC3 0xA9 0x6C), `capitalizeFirst` upper-cases the byte
0xC3 alone and appends 0xA9 0x6C; whatever `strings.ToUpper` returns, the
result is not the string with the first character upper-cased (U+00C9
followed by "l", bytes 0xC3 0x89 0x6C). -/
theorem C16_capitalizeFirst_splits_character (ToUpper : GoString → GoString) :
    capitalizeFirst ToUpper (runesToString [0xE9, 0x6C]) = ToUpper [0xC3] ++ [0xA9, 0x6C]
      ∧ capitalizeFirst ToUpper (runesToString [0xE9, 0x6C]) ≠ runesToString [0xC9, 0x6C] := by
  have h1 : runesToString [0xE9, 0x6C] = [0xC3, 0xA9, 0x6C] := by decide
  have h2 : runesToString [0xC9, 0x6C] = [0xC3, 0x89, 0x6C] := by decide
  rw [h1, h2, capitalizeFirst_cons]
  refine ⟨rfl, ?_⟩
  intro h
  have h3 := congrArg (fun l => l.reverse.take 2) h
  simp at h3

/-- C17: in the template data built by `GeneratePlugin`, `Underline` consists
of "=" bytes (61) only and is as long as `HeaderTitle`, which is the
upper-cased name; `DocHeader` is `HeaderTitle` followed by ".TXT". -/
theorem C17_underline_matches_header (w : World) (name description : GoString) :
    (∀ b ∈ (templateData w name description).Underline, b = 61)
      ∧ (templateData w name description).Underline.length
          = (templateData w name description).HeaderTitle.length
      ∧ (templateData w name description).HeaderTitle = w.ToUpper name
      ∧ (templateData w name description).DocHeader
          = (templateData w name description).HeaderTitle ++ str ".TXT" := by
  refine ⟨?_, ?_, rfl, rfl⟩
  · intro b hb
    have hu : (templateData w name description).Underline
        = List.replicate (w.ToUpper name).length 61 := Repeat_eq _
    rw [hu] at hb
    exact List.eq_of_mem_replicate hb
  · have hu : (templateData w name description).Underline
        = List.replicate (w.ToUpper name).length 61 := Repeat_eq _
    rw [hu, List.length_replicate]
    rfl

/-! ## `GeneratePlugin` as a fail-fast run of its steps -/

/-- The loop over `dirs` is the fail-fast run of its steps. -/
theorem createDirs_eq_runSteps (w : World) (data : TemplateData) (dirs : List GoString)
    (tr : List Event) :
    createDirs w dirs tr = runSteps w data (dirSteps dirs) tr := by
  induction dirs generalizing tr with
  | nil => rfl
  | cons dir rest ih =>
    simp only [createDirs, dirSteps, List.map_cons, runSteps, outcome]
    cases w.MkdirAll tr dir 0o755 with
    | some err => rfl
    | none => exact ih _

/-- The loop over `filesToGenerate` is the fail-fast run of its steps. -/
theorem generateFiles_eq_runSteps (w : World) (data : TemplateData)
    (files : List (GoString × GoString)) (tr : List Event) :
    generateFiles w data files tr = runSteps w data (fileSteps w data files) tr := by
  induction files generalizing tr with
  | nil => rfl
  | cons f rest ih =>
    obtain ⟨outputPath, tmplPath⟩ := f
    simp only [generateFiles, fileSteps, List.flatMap_cons, List.cons_append, List.nil_append,
      runSteps, outcome]
    cases hr : renderTemplateFile w tmplPath data with
    | mk content e =>
      cases e with
      | some err => rfl
      | none =>
        simp only
        cases w.WriteFile (tr ++ [⟨.renderTemplateFile tmplPath, none⟩]) outputPath content
            0o644 with
        | some err => rfl
        | none => exact ih _

/-- Running two lists of steps one after the other. -/
theorem runSteps_append (w : World) (data : TemplateData) (l1 l2 : List (Op × GoString))
    (tr : List Event) :
    runSteps w data (l1 ++ l2) tr =
      match runSteps w data l1 tr with
      | ⟨some err, t⟩ => ⟨some err, t⟩
      | ⟨none, t⟩ => runSteps w data l2 t := by
  induction l1 generalizing tr with
  | nil => rfl
  | cons st rest ih =>
    obtain ⟨op, text⟩ := st
    simp only [List.cons_append, runSteps]
    cases outcome w data tr op with
    | some err => rfl
    | none => exact ih _

/-- One step of a fail-fast run. -/
theorem runSteps_cons (w : World) (data : TemplateData) (op : Op) (text : GoString)
    (rest : List (Op × GoString)) (tr : List Event) :
    runSteps w data ((op, text) :: rest) tr =
      match outcome w data tr op with
      | some err => ⟨some (Errorf text err), tr ++ [⟨op, some err⟩]⟩
      | none => runSteps w data rest (tr ++ [⟨op, none⟩]) := rfl

/-- `GeneratePlugin` is the fail-fast run of its planned steps. -/
theorem GeneratePlugin_eq_runSteps (w : World) (name description : GoString) :
    GeneratePlugin w name description
      = runSteps w (templateData w name description) (plannedSteps w name description) [] := by
  unfold GeneratePlugin plannedSteps
  rw [runSteps_cons, runSteps_append,
    ← createDirs_eq_runSteps w (templateData w name description)]
  simp only [outcome, List.nil_append]
  cases w.MkdirAll [] (str "./" ++ name) 0o755 with
  | some err => rfl
  | none =>
    simp only
    cases createDirs w (pluginDirs name) [⟨.MkdirAll (str "./" ++ name) 0o755, none⟩] with
    | mk e tr =>
      cases e with
      | some err => rfl
      | none => exact generateFiles_eq_runSteps _ _ _ _

/-- A fail-fast run returns no error exactly when every step succeeds. -/
theorem runSteps_err_none_iff (w : World) (data : TemplateData) (steps : List (Op × GoString))
    (tr : List Event) :
    (runSteps w data steps tr).err = none ↔ allSucceed w data steps tr := by
  induction steps generalizing tr with
  | nil => simp [runSteps, allSucceed]
  | cons st rest ih =>
    obtain ⟨op, text⟩ := st
    simp only [runSteps, allSucceed]
    cases ho : outcome w data tr op with
    | some err => simp
    | none => simpa using ih _

/-- A fail-fast run without error has performed every step. -/
theorem runSteps_trace_of_ok (w : World) (data : TemplateData) (steps : List (Op × GoString))
    (tr : List Event) (h : (runSteps w data steps tr).err = none) :
    (runSteps w data steps tr).trace = tr ++ okEvents steps := by
  induction steps generalizing tr with
  | nil => simp [runSteps, okEvents]
  | cons st rest ih =>
    obtain ⟨op, text⟩ := st
    simp only [runSteps] at h ⊢
    cases ho : outcome w data tr op with
    | some err => simp [ho] at h
    | none =>
      simp only [ho] at h ⊢
      rw [ih _ h]
      simp [okEvents]

/-- A fail-fast run with an error stopped at its first failing step. -/
theorem runSteps_of_err (w : World) (data : TemplateData) (steps : List (Op × GoString))
    (tr : List Event) (e : GoError) (h : (runSteps w data steps tr).err = some e) :
    ∃ pre op text rest inner,
      steps = pre ++ (op, text) :: rest
        ∧ allSucceed w data pre tr
        ∧ outcome w data (tr ++ okEvents pre) op = some inner
        ∧ e = Errorf text inner
        ∧ (runSteps w data steps tr).trace = tr ++ okEvents pre ++ [⟨op, some inner⟩] := by
  induction steps generalizing tr with
  | nil => simp [runSteps] at h
  | cons st rest ih =>
    obtain ⟨op, text⟩ := st
    simp only [runSteps] at h ⊢
    cases ho : outcome w data tr op with
    | some err =>
      simp only [ho, Option.some.injEq] at h ⊢
      exact ⟨[], op, text, rest, err, rfl, trivial, by simpa [okEvents] using ho, h.symm,
        by simp [okEvents]⟩
    | none =>
      simp only [ho] at h ⊢
      obtain ⟨pre, op2, text2, rest2, inner, hsteps, hall, hout, he, htr⟩ := ih _ h
      refine ⟨(op, text) :: pre, op2, text2, rest2, inner, ?_, ⟨ho, hall⟩, ?_, he, ?_⟩
      · simp [hsteps]
      · simpa [okEvents] using hout
      · simpa [okEvents] using htr

/-- `GeneratePlugin` has twelve planned steps. -/
theorem plannedSteps_length (w : World) (name description : GoString) :
    (plannedSteps w name description).length = 12 := by
  simp [plannedSteps, dirSteps, pluginDirs, fileSteps, filesToGenerate]

/-- C19: `GeneratePlugin` is fail-fast without rollback. With its directory
creations, renderings and file writes as the sequence of planned steps, each
with the outcome the surroundings give it: it returns nil exactly when every
step succeeds, and has then performed all twelve steps; otherwise the
returned error wraps the failure of the first failing step, and the
operations performed are the steps before it, all successful and none
undone, followed by the failing step and nothing after it. -/
theorem C19_fail_fast_no_rollback (w : World) (name description : GoString) :
    (plannedSteps w name description).length = 12
      ∧ ((GeneratePlugin w name description).err = none
        ↔ allSucceed w (templateData w name description) (plannedSteps w name description) [])
      ∧ ((GeneratePlugin w name description).err = none →
          (GeneratePlugin w name description).trace
            = okEvents (plannedSteps w name description))
      ∧ (∀ e, (GeneratePlugin w name description).err = some e →
          ∃ pre op text rest inner,
            plannedSteps w name description = pre ++ (op, text) :: rest
              ∧ allSucceed w (templateData w name description) pre []
              ∧ outcome w (templateData w name description) (okEvents pre) op = some inner
              ∧ e = Errorf text inner
              ∧ (GeneratePlugin w name description).trace
                  = okEvents pre ++ [⟨op, some inner⟩]) := by
  rw [GeneratePlugin_eq_runSteps]
  refine ⟨plannedSteps_length w name description, runSteps_err_none_iff _ _ _ _, ?_, ?_⟩
  · intro h
    simpa using runSteps_trace_of_ok _ _ _ _ h
  · intro e h
    simpa using runSteps_of_err _ _ _ _ e h

/-! ## The wrapping of a failure -/

/-- A string contains each of its infixes. -/
theorem Contains_infix (a p b : GoString) : Contains (a ++ p ++ b) p = true := by
  induction a with
  | nil =>
    have hp : p.isPrefixOf (p ++ b) = true := List.isPrefixOf_iff_prefix.mpr ⟨b, rfl⟩
    cases hpb : p ++ b with
    | nil => simp only [List.nil_append, hpb, Contains] at hp ⊢; exact hp
    | cons c rest => simp only [List.nil_append, hpb, Contains, Bool.or_eq_true] at hp ⊢; exact Or.inl hp
  | cons c rest ih =>
    simp only [List.cons_append, Contains, Bool.or_eq_true]
    exact Or.inr (by simpa using ih)

/-- The text wrapped around the failure of a directory of `dirs` contains the
path of that directory. -/
theorem dirSteps_text_contains_path (dirs : List GoString) :
    ∀ st ∈ dirSteps dirs, ∃ dir ∈ dirs, st.1 = Op.MkdirAll dir 0o755
      ∧ Contains st.2 dir = true := by
  intro st hst
  obtain ⟨dir, hdir, rfl⟩ := List.mem_map.mp hst
  exact ⟨dir, hdir, rfl, Contains_infix _ _ _⟩

/-- The text wrapped around the failure of a rendering or of a write contains
the path of the output file. -/
theorem fileSteps_text_contains_path (w : World) (data : TemplateData)
    (files : List (GoString × GoString)) :
    ∀ st ∈ fileSteps w data files, ∃ f ∈ files, Contains st.2 f.1 = true := by
  intro st hst
  obtain ⟨f, hf, hmem⟩ := List.mem_flatMap.mp hst
  refine ⟨f, hf, ?_⟩
  simp only [List.mem_cons, List.mem_singleton, List.not_mem_nil, or_false] at hmem
  rcases hmem with rfl | rfl <;> exact Contains_infix _ _ _

/-! ## Paths -/

/-- A path has at least one element. -/
theorem splitSlash_ne_nil (s : GoString) : splitSlash s ≠ [] := by
  cases s with
  | nil => simp [splitSlash]
  | cons b rest =>
    simp only [splitSlash]
    split_ifs
    · simp
    · split <;> simp

/-- The elements of two paths joined by a slash. -/
theorem splitSlash_append_slash (a b : GoString) :
    splitSlash (a ++ 47 :: b) = splitSlash a ++ splitSlash b := by
  induction a with
  | nil => simp [splitSlash]
  | cons c a ih =>
    by_cases hc : c = 47
    · simp [splitSlash, hc, ih]
    · simp only [List.cons_append, splitSlash, if_neg hc, List.append_eq]
      rw [ih]
      cases hsa : splitSlash a with
      | nil => exact absurd hsa (splitSlash_ne_nil a)
      | cons d ds => rfl

/-- A string without a slash is a single element. -/
theorem splitSlash_of_not_mem (s : GoString) (h : 47 ∉ s) : splitSlash s = [s] := by
  induction s with
  | nil => rfl
  | cons c s ih =>
    have hc : c ≠ 47 := fun e => h (by simp [e])
    have hs : 47 ∉ s := fun e => h (List.mem_cons_of_mem _ e)
    simp [splitSlash, hc, ih hs]

/-- Appending a string without a slash extends the last element. -/
theorem splitSlash_append_of_not_mem (a s : GoString) (h : 47 ∉ s) :
    ∃ D L, splitSlash a = D ++ [L] ∧ splitSlash (a ++ s) = D ++ [L ++ s] := by
  induction a with
  | nil => exact ⟨[], [], rfl, by simpa using splitSlash_of_not_mem s h⟩
  | cons c a ih =>
    obtain ⟨D, L, h1, h2⟩ := ih
    by_cases hc : c = 47
    · exact ⟨[] :: D, L, by simp [splitSlash, hc, h1], by simp [splitSlash, hc, h2]⟩
    · cases D with
      | nil =>
        refine ⟨[], c :: L, ?_, ?_⟩
        · simp only [splitSlash, if_neg hc]
          rw [h1]
          rfl
        · simp only [List.cons_append, splitSlash, if_neg hc, List.append_eq]
          rw [h2]
          rfl
      | cons d ds =>
        refine ⟨(c :: d) :: ds, L, ?_, ?_⟩
        · simp only [splitSlash, if_neg hc]
          rw [h1]
          rfl
        · simp only [List.cons_append, splitSlash, if_neg hc, List.append_eq]
          rw [h2]
          rfl

/-- An element of a path holds no slash. -/
theorem not_mem_of_mem_splitSlash (s e : GoString) (he : e ∈ splitSlash s) : 47 ∉ e := by
  induction s generalizing e with
  | nil =>
    simp only [splitSlash, List.mem_singleton] at he
    subst he
    simp
  | cons c s ih =>
    by_cases hc : c = 47
    · simp only [splitSlash, hc, if_true, List.mem_cons] at he
      rcases he with rfl | he
      · simp
      · exact ih e he
    · simp only [splitSlash, if_neg hc] at he
      cases hs : splitSlash s with
      | nil => exact absurd hs (splitSlash_ne_nil s)
      | cons d ds =>
        simp only [hs, List.mem_cons] at he
        rcases he with rfl | he
        · have hd : 47 ∉ d := ih d (by simp [hs])
          intro h47
          simp only [List.mem_cons] at h47
          rcases h47 with h | h
          · exact hc h.symm
          · exact hd h
        · exact ih e (by simp [hs, he])

/-- Joining elements that hold no slash and splitting again gives the
elements back. -/
theorem splitSlash_intercalate (es : List GoString) (hne : es ≠ [])
    (h : ∀ e ∈ es, 47 ∉ e) : splitSlash ((str "/").intercalate es) = es := by
  have hs : str "/" = [47] := by decide
  rw [hs]
  induction es with
  | nil => exact absurd rfl hne
  | cons e rest ih =>
    cases rest with
    | nil =>
      simpa [List.intercalate, List.intersperse] using
        splitSlash_of_not_mem e (h e (List.mem_cons_self _ _))
    | cons e2 rest2 =>
      have ih2 := ih (by simp) (fun x hx => h x (List.mem_cons_of_mem _ hx))
      have hcat : List.intercalate [47] (e :: e2 :: rest2)
          = e ++ 47 :: List.intercalate [47] (e2 :: rest2) := by
        simp [List.intercalate, List.intersperse]
      rw [hcat, splitSlash_append_slash, ih2,
        splitSlash_of_not_mem e (h e (List.mem_cons_self _ _))]
      rfl

/-- Without ".." elements, cleaning keeps the real elements, in order. -/
theorem foldl_pushElem_of_not_mem (rooted : Bool) (es st : List GoString)
    (h : str ".." ∉ es) :
    es.foldl (pushElem rooted) st = (es.filter realElem).reverse ++ st := by
  induction es generalizing st with
  | nil => rfl
  | cons e rest ih =>
    have he : e ≠ str ".." := fun x => h (by simp [x])
    have hrest : str ".." ∉ rest := fun x => h (List.mem_cons_of_mem _ x)
    rw [List.foldl_cons, ih _ hrest]
    by_cases hr : e = [] ∨ e = str "."
    · simp [pushElem, hr, realElem, List.filter_cons]
    · simp [pushElem, hr, he, realElem, List.filter_cons]

/-- The cleaned elements of a path without ".." elements. -/
theorem pathElems_of_not_mem (path : GoString) (h : str ".." ∉ splitSlash path) :
    pathElems path = (splitSlash path).filter realElem := by
  rw [pathElems, foldl_pushElem_of_not_mem _ _ _ h]
  simp

/-- Joining one element with slashes gives that element. -/
theorem intercalate_slash_singleton (e : GoString) : List.intercalate [47] [e] = e := by
  simp [List.intercalate, List.intersperse]

/-- Joining with slashes, element by element. -/
theorem intercalate_slash_cons_cons (e e2 : GoString) (rest : List GoString) :
    List.intercalate [47] (e :: e2 :: rest) = e ++ 47 :: List.intercalate [47] (e2 :: rest) := by
  simp [List.intercalate, List.intersperse]

/-- Cleaning a relative path without ".." elements keeps its real elements,
and the result is relative. -/
theorem pathElems_Clean_of_not_mem (path : GoString) (hroot : isRooted path = false)
    (h : str ".." ∉ splitSlash path) :
    pathElems (Clean path) = (splitSlash path).filter realElem
      ∧ isRooted (Clean path) = false := by
  have hF : pathElems path = (splitSlash path).filter realElem := pathElems_of_not_mem path h
  have hs : str "/" = [47] := by decide
  unfold Clean
  rw [hroot, hF]
  simp only [Bool.false_eq_true, if_false]
  by_cases hnil : (splitSlash path).filter realElem = []
  · rw [if_pos hnil, hnil]
    exact ⟨by decide, by decide⟩
  · rw [if_neg hnil]
    have hslash : ∀ e ∈ (splitSlash path).filter realElem, 47 ∉ e := fun e he =>
      not_mem_of_mem_splitSlash path e (List.mem_filter.mp he).1
    have hsplit := splitSlash_intercalate _ hnil hslash
    have hdd : str ".." ∉ splitSlash ((str "/").intercalate ((splitSlash path).filter realElem)) := by
      rw [hsplit]
      exact fun x => h (List.mem_filter.mp x).1
    constructor
    · rw [pathElems_of_not_mem _ hdd, hsplit, List.filter_filter]
      simp
    · rw [hs]
      cases hl : (splitSlash path).filter realElem with
      | nil => exact absurd hl hnil
      | cons e rest =>
        have he : e ∈ (splitSlash path).filter realElem := by simp [hl]
        have hreal : realElem e = true := (List.mem_filter.mp he).2
        have h47 : 47 ∉ e := hslash e he
        cases e with
        | nil => simp [realElem] at hreal
        | cons c e1 =>
          have hc : c ≠ 47 := fun x => h47 (by simp [x])
          cases rest with
          | nil => simp [intercalate_slash_singleton, isRooted, hc]
          | cons e2 rest2 => simp [intercalate_slash_cons_cons, isRooted, hc]

/-- The real elements of the plugin directory "./" + name. -/
theorem splitSlash_pluginDir (name : GoString) :
    splitSlash (str "./" ++ name) = [str "."] ++ splitSlash name := by
  have h1 : str "./" ++ name = [46] ++ 47 :: name := by
    have : str "./" = [46, 47] := by decide
    rw [this]; rfl
  rw [h1, splitSlash_append_slash]
  rfl

/-- A directory contains itself. -/
theorem insideDir_self (dir : GoString) : insideDir dir dir = true := by
  simp [insideDir, List.isPrefixOf_iff_prefix]

/-- For a name without ".." elements, a cleaned path made of the plugin
directory, a slash and a rest without ".." elements lies in the plugin
directory. -/
theorem insideDir_of_not_mem (name rest : GoString) (hn : str ".." ∉ splitSlash name)
    (hx : str ".." ∉ splitSlash rest) :
    insideDir (str "./" ++ name) (Clean (str "./" ++ name ++ 47 :: rest)) = true := by
  have h2 : str "./" = [46, 47] := by decide
  have hdir : str ".." ∉ splitSlash (str "./" ++ name) := by
    rw [splitSlash_pluginDir]
    intro x
    rcases List.mem_append.mp x with x | x
    · revert x; decide
    · exact hn x
  have hsplit : splitSlash (str "./" ++ name ++ 47 :: rest)
      = splitSlash (str "./" ++ name) ++ splitSlash rest := splitSlash_append_slash _ _
  have hpath : str ".." ∉ splitSlash (str "./" ++ name ++ 47 :: rest) := by
    rw [hsplit]
    intro x
    rcases List.mem_append.mp x with x | x
    · exact hdir x
    · exact hx x
  have hroot : isRooted (str "./" ++ name ++ 47 :: rest) = false := by
    rw [h2]; rfl
  have hrootd : isRooted (str "./" ++ name) = false := by
    rw [h2]; rfl
  obtain ⟨hE, hR⟩ := pathElems_Clean_of_not_mem _ hroot hpath
  have hG : str ".." ∉ (splitSlash rest).filter realElem := fun x => hx (List.mem_filter.mp x).1
  simp only [insideDir, hE, hR, hrootd, pathElems_of_not_mem _ hdir, hsplit, List.filter_append,
    List.drop_left, decide_True, Bool.true_and, Bool.and_eq_true, decide_eq_true_eq]
  exact ⟨List.isPrefixOf_iff_prefix.mpr (List.prefix_append _ _), hG⟩

/-- Appending an extension of at least three bytes and without a slash to a
name without ".." elements gives no ".." element. -/
theorem not_mem_splitSlash_append (name ext : GoString) (hn : str ".." ∉ splitSlash name)
    (hslash : 47 ∉ ext) (hlen : 3 ≤ ext.length) :
    str ".." ∉ splitSlash (name ++ ext) := by
  obtain ⟨D, L, h1, h2⟩ := splitSlash_append_of_not_mem name ext hslash
  rw [h2]
  intro x
  rcases List.mem_append.mp x with x | x
  · exact hn (by rw [h1]; exact List.mem_append_left _ x)
  · simp only [List.mem_singleton] at x
    have hl := congrArg List.length x
    have h2 : (str "..").length = 2 := by decide
    rw [h2, List.length_append] at hl
    omega

/-- `filepath.Join` of the plugin directory and further elements is the
cleaned form of the plugin directory, a slash and those elements joined. -/
theorem Join_pluginDir (name e : GoString) (es : List GoString) :
    Join ((str "./" ++ name) :: e :: es)
      = Clean (str "./" ++ name ++ 47 :: List.intercalate [47] (e :: es)) := by
  have h2 : str "./" = [46, 47] := by decide
  have hs : str "/" = [47] := by decide
  have hne : (str "./" ++ name = []) = False := by rw [h2]; simp
  simp only [Join, List.dropWhile, hne, decide_False, hs, intercalate_slash_cons_cons]

/-- The paths `GeneratePlugin` works on, in the order of its steps: the
plugin directory, the three directories below it and the four files. -/
theorem planned_paths (w : World) (name description : GoString) :
    (plannedSteps w name description).filterMap (fun st => st.1.path)
      = [str "./" ++ name,
         Clean (str "./" ++ name ++ 47 :: (str "lua" ++ 47 :: name)),
         Clean (str "./" ++ name ++ 47 :: str "plugin"),
         Clean (str "./" ++ name ++ 47 :: str "doc"),
         Clean (str "./" ++ name ++ 47 :: (str "lua" ++ 47 :: (name ++ 47 :: str "init.lua"))),
         Clean (str "./" ++ name ++ 47 :: (str "plugin" ++ 47 :: (name ++ str ".lua"))),
         Clean (str "./" ++ name ++ 47 :: str "README.md"),
         Clean (str "./" ++ name ++ 47 :: (str "doc" ++ 47 :: (name ++ str ".txt")))] := by
  simp [plannedSteps, dirSteps, pluginDirs, fileSteps, filesToGenerate, Op.path, Join_pluginDir,
    intercalate_slash_cons_cons, intercalate_slash_singleton]

/-- Every path `GeneratePlugin` works on lies in the plugin directory when
the name has no ".." element. -/
theorem planned_paths_inside (w : World) (name description : GoString)
    (hn : str ".." ∉ splitSlash name) :
    ∀ p ∈ (plannedSteps w name description).filterMap (fun st => st.1.path),
      insideDir (str "./" ++ name) p = true := by
  have hlua : str ".." ∉ splitSlash (str "lua" ++ 47 :: name) := by
    rw [splitSlash_append_slash]
    intro x
    rcases List.mem_append.mp x with x | x
    · revert x; decide
    · exact hn x
  have hinit : str ".." ∉ splitSlash (str "lua" ++ 47 :: (name ++ 47 :: str "init.lua")) := by
    rw [splitSlash_append_slash, splitSlash_append_slash]
    intro x
    rcases List.mem_append.mp x with x | x
    · revert x; decide
    · rcases List.mem_append.mp x with x | x
      · exact hn x
      · revert x; decide
  have hplug : str ".." ∉ splitSlash (str "plugin" ++ 47 :: (name ++ str ".lua")) := by
    rw [splitSlash_append_slash]
    intro x
    rcases List.mem_append.mp x with x | x
    · revert x; decide
    · exact not_mem_splitSlash_append name (str ".lua") hn (by decide) (by decide) x
  have hdoc : str ".." ∉ splitSlash (str "doc" ++ 47 :: (name ++ str ".txt")) := by
    rw [splitSlash_append_slash]
    intro x
    rcases List.mem_append.mp x with x | x
    · revert x; decide
    · exact not_mem_splitSlash_append name (str ".txt") hn (by decide) (by decide) x
  intro p hp
  rw [planned_paths] at hp
  simp only [List.mem_cons, List.mem_singleton, List.not_mem_nil, or_false] at hp
  rcases hp with rfl | rfl | rfl | rfl | rfl | rfl | rfl | rfl
  · exact insideDir_self _
  · exact insideDir_of_not_mem name _ hn hlua
  · exact insideDir_of_not_mem name _ hn (by decide)
  · exact insideDir_of_not_mem name _ hn (by decide)
  · exact insideDir_of_not_mem name _ hn hinit
  · exact insideDir_of_not_mem name _ hn hplug
  · exact insideDir_of_not_mem name _ hn (by decide)
  · exact insideDir_of_not_mem name _ hn hdoc

/-- Whatever happens, the operations `GeneratePlugin` performs are planned
steps. -/
theorem trace_op_mem_planned (w : World) (name description : GoString) :
    ∀ e ∈ (GeneratePlugin w name description).trace,
      e.op ∈ (plannedSteps w name description).map Prod.fst := by
  intro e he
  rw [GeneratePlugin_eq_runSteps] at he
  cases herr : (runSteps w (templateData w name description)
      (plannedSteps w name description) []).err with
  | none =>
    rw [runSteps_trace_of_ok _ _ _ _ herr] at he
    simp only [List.nil_append, okEvents, List.mem_map] at he
    obtain ⟨st, hst, rfl⟩ := he
    exact List.mem_map.mpr ⟨st, hst, rfl⟩
  | some err =>
    obtain ⟨pre, op, text, rest, inner, hsteps, _, _, _, htr⟩ := runSteps_of_err _ _ _ _ err herr
    rw [htr] at he
    rw [hsteps]
    simp only [List.nil_append, okEvents, List.mem_append, List.mem_map, List.mem_singleton] at he
    rcases he with ⟨st, hst, rfl⟩ | rfl
    · exact List.mem_map.mpr ⟨st, List.mem_append_left _ hst, rfl⟩
    · exact List.mem_map.mpr ⟨(op, text), by simp, rfl⟩

/-- C18, as the code has it: a run of `GeneratePlugin` without error has
created, in this order, the directories ./name, ./name/lua/name,
./name/plugin and ./name/doc and written exactly four files, in this order,
at ./name/lua/name/init.lua, ./name/plugin/name.lua, ./name/README.md and
./name/doc/name.txt (the paths below ./name in the cleaned form that
`filepath.Join` gives them), each with what its template rendered; and when
the name has no ".." path element, every path the generator works on lies in
./name. -/
theorem C18_fixed_layout (w : World) (name description : GoString)
    (h : (GeneratePlugin w name description).err = none) :
    (GeneratePlugin w name description).trace.map Event.op
        = [Op.MkdirAll (str "./" ++ name) 0o755,
           Op.MkdirAll (Clean (str "./" ++ name ++ str "/lua/" ++ name)) 0o755,
           Op.MkdirAll (Clean (str "./" ++ name ++ str "/plugin")) 0o755,
           Op.MkdirAll (Clean (str "./" ++ name ++ str "/doc")) 0o755,
           Op.renderTemplateFile (str "templates/lua/plugin_name/init.lua.tmpl"),
           Op.WriteFile (Clean (str "./" ++ name ++ str "/lua/" ++ name ++ str "/init.lua"))
             (renderTemplateFile w (str "templates/lua/plugin_name/init.lua.tmpl")
               (templateData w name description)).1 0o644,
           Op.renderTemplateFile (str "templates/plugin/plugin.lua.tmpl"),
           Op.WriteFile (Clean (str "./" ++ name ++ str "/plugin/" ++ name ++ str ".lua"))
             (renderTemplateFile w (str "templates/plugin/plugin.lua.tmpl")
               (templateData w name description)).1 0o644,
           Op.renderTemplateFile (str "templates/README.md.tmpl"),
           Op.WriteFile (Clean (str "./" ++ name ++ str "/README.md"))
             (renderTemplateFile w (str "templates/README.md.tmpl")
               (templateData w name description)).1 0o644,
           Op.renderTemplateFile (str "templates/doc/plugin.txt.tmpl"),
           Op.WriteFile (Clean (str "./" ++ name ++ str "/doc/" ++ name ++ str ".txt"))
             (renderTemplateFile w (str "templates/doc/plugin.txt.tmpl")
               (templateData w name description)).1 0o644]
      ∧ (str ".." ∉ splitSlash name →
          ∀ e ∈ (GeneratePlugin w name description).trace, ∀ p, e.op.path = some p →
            insideDir (str "./" ++ name) p = true) := by
  constructor
  · have h1 : str "/lua/" = 47 :: (str "lua" ++ [47]) := by decide
    have h2 : str "/plugin" = 47 :: str "plugin" := by decide
    have h3 : str "/doc" = 47 :: str "doc" := by decide
    have h4 : str "/init.lua" = 47 :: str "init.lua" := by decide
    have h5 : str "/plugin/" = 47 :: (str "plugin" ++ [47]) := by decide
    have h6 : str "/README.md" = 47 :: str "README.md" := by decide
    have h7 : str "/doc/" = 47 :: (str "doc" ++ [47]) := by decide
    rw [GeneratePlugin_eq_runSteps] at h ⊢
    rw [runSteps_trace_of_ok _ _ _ _ h]
    simp [okEvents, plannedSteps, dirSteps, pluginDirs, fileSteps, filesToGenerate,
      Join_pluginDir, intercalate_slash_cons_cons, intercalate_slash_singleton,
      h1, h2, h3, h4, h5, h6, h7]
  · intro hn e he p hp
    apply planned_paths_inside w name description hn
    obtain ⟨st, hst, hop⟩ := List.mem_map.mp (trace_op_mem_planned w name description e he)
    exact List.mem_filterMap.mpr ⟨st, hst, by rw [hop]; exact hp⟩

theorem C18_fixed_layout_witness :
    (GeneratePlugin okWorld (str "test-plugin") (str "A test plugin")).trace.map Event.op
        = [Op.MkdirAll (str "./test-plugin") 0o755,
           Op.MkdirAll (str "test-plugin/lua/test-plugin") 0o755,
           Op.MkdirAll (str "test-plugin/plugin") 0o755,
           Op.MkdirAll (str "test-plugin/doc") 0o755,
           Op.renderTemplateFile (str "templates/lua/plugin_name/init.lua.tmpl"),
           Op.WriteFile (str "test-plugin/lua/test-plugin/init.lua") (str "test-plugin") 0o644,
           Op.renderTemplateFile (str "templates/plugin/plugin.lua.tmpl"),
           Op.WriteFile (str "test-plugin/plugin/test-plugin.lua") (str "test-plugin") 0o644,
           Op.renderTemplateFile (str "templates/README.md.tmpl"),
           Op.WriteFile (str "test-plugin/README.md") (str "test-plugin") 0o644,
           Op.renderTemplateFile (str "templates/doc/plugin.txt.tmpl"),
           Op.WriteFile (str "test-plugin/doc/test-plugin.txt") (str "test-plugin") 0o644]
      ∧ (∀ e ∈ (GeneratePlugin okWorld (str "test-plugin") (str "A test plugin")).trace,
          ∀ p, e.op.path = some p → insideDir (str "./" ++ str "test-plugin") p = true) :=
  ⟨(C18_fixed_layout okWorld (str "test-plugin") (str "A test plugin") (by decide)).1.trans
      (by decide),
    (C18_fixed_layout okWorld (str "test-plugin") (str "A test plugin") (by decide)).2
      (by decide)⟩

/-- C18 as stated fails for the name "../..": in surroundings where every
step succeeds, the first file is written at "../../../init.lua", which is
not inside the plugin directory "./../..". -/
theorem C18_escapes_plugin_dir_counterexample :
    (GeneratePlugin okWorld (str "../..") (str "d")).err = none
      ∧ (⟨Op.WriteFile (str "../../../init.lua") (str "../..") 0o644, none⟩ : Event)
          ∈ (GeneratePlugin okWorld (str "../..") (str "d")).trace
      ∧ insideDir (str "./" ++ str "../..") (str "../../../init.lua") = false := by
  decide

/-! ## The Done view -/

/-- C21: for a model with status `done`, `View` renders the success path when
`err` is nil (the styled heading "✓ Plugin created successfully!", then the
location line and "./" followed by `pluginName`) and otherwise the error path
(the styled heading "✗ Error creating plugin:", then the message of `err`,
verbatim and contiguous); in both cases the output ends with the footer
"\n\nPress q to quit\n". When the renderer keeps the text it styles, the
output holds "Plugin created successfully" before "./" + `pluginName` in the
first case and "Error creating plugin" before the message in the second. -/
theorem C21_done_view (Render : Style → GoString → GoString) (m : Model)
    (hs : m.status = .done) :
    (m.err = none →
        View Render m
          = Render
                { Bold := true, Foreground := some (str "#FAFAFA"),
                  Background := some (str "#7D56F4"), PaddingLeft := 2, PaddingRight := 2,
                  MarginBottom := 1 }
                (str "nvim-plugin: Neovim Plugin Generator") ++ str "\n"
              ++ (Render { Foreground := some (str "#04B575"), Bold := true }
                    (str "✓ Plugin created successfully!") ++ str "\n\n"
                  ++ str "Your new plugin has been created at:\n"
                  ++ (str "./" ++ m.pluginName))
              ++ str "\n\nPress q to quit\n")
      ∧ (∀ e, m.err = some e →
          View Render m
            = Render
                  { Bold := true, Foreground := some (str "#FAFAFA"),
                    Background := some (str "#7D56F4"), PaddingLeft := 2, PaddingRight := 2,
                    MarginBottom := 1 }
                  (str "nvim-plugin: Neovim Plugin Generator") ++ str "\n"
                ++ (Render { Foreground := some (str "#FF0000"), Bold := true }
                      (str "✗ Error creating plugin:") ++ str "\n\n"
                    ++ e.Error)
                ++ str "\n\nPress q to quit\n"
            ∧ e.Error <:+: View Render m)
      ∧ str "\n\nPress q to quit\n" <:+ View Render m
      ∧ ((∀ st text, text <:+: Render st text) →
          (m.err = none →
            ∃ a b, View Render m
              = a ++ str "Plugin created successfully" ++ b ++ (str "./" ++ m.pluginName)
                  ++ str "\n\nPress q to quit\n")
          ∧ (∀ e, m.err = some e →
            ∃ a b, View Render m
              = a ++ str "Error creating plugin" ++ b ++ e.Error
                  ++ str "\n\nPress q to quit\n")) := by
  refine ⟨?_, ?_, ?_, ?_⟩
  · intro he
    simp only [View, viewDone, hs, he, List.append_assoc]
  · intro e he
    constructor
    · simp only [View, viewDone, hs, he, List.append_assoc]
    · simp only [View, viewDone, hs, he]
      generalize Render _ (str "nvim-plugin: Neovim Plugin Generator") = title
      generalize Render _ (str "✗ Error creating plugin:") = heading
      exact ⟨title ++ str "\n" ++ (heading ++ str "\n\n"), str "\n\nPress q to quit\n",
        by simp only [List.append_assoc]⟩
  · exact ⟨_, rfl⟩
  · intro hR
    constructor
    · intro he
      obtain ⟨p, q, hpq⟩ := hR { Foreground := some (str "#04B575"), Bold := true }
        (str "✓ Plugin created successfully!")
      have hh : str "✓ Plugin created successfully!"
          = str "✓ " ++ str "Plugin created successfully" ++ str "!" := by decide
      simp only [View, viewDone, hs, he]
      rw [← hpq, hh]
      generalize Render _ (str "nvim-plugin: Neovim Plugin Generator") = title
      exact ⟨title ++ str "\n" ++ p ++ str "✓ ",
        str "!" ++ q ++ str "\n\n" ++ str "Your new plugin has been created at:\n",
        by simp only [List.append_assoc]⟩
    · intro e he
      obtain ⟨p, q, hpq⟩ := hR { Foreground := some (str "#FF0000"), Bold := true }
        (str "✗ Error creating plugin:")
      have hh : str "✗ Error creating plugin:"
          = str "✗ " ++ str "Error creating plugin" ++ str ":" := by decide
      simp only [View, viewDone, hs, he]
      rw [← hpq, hh]
      generalize Render _ (str "nvim-plugin: Neovim Plugin Generator") = title
      exact ⟨title ++ str "\n" ++ p ++ str "✗ ", str ":" ++ q ++ str "\n\n",
        by simp only [List.append_assoc]⟩

theorem C21_done_view_witness :
    failedT.status = .done
      ∧ View plainRender failedT
          = str "nvim-plugin: Neovim Plugin Generator\n✗ Error creating plugin:\n\nx\n\nPress q to quit\n"
      ∧ (⟨[120]⟩ : GoError).Error <:+: View plainRender failedT :=
  ⟨rfl, ((C21_done_view plainRender failedT rfl).2.1 ⟨[120]⟩ rfl).1.trans (by decide),
    ((C21_done_view plainRender failedT rfl).2.1 ⟨[120]⟩ rfl).2⟩

/-! ## Template rendering, and the number of operations -/

/-- C22: `renderTemplateFile` returns the empty string together with every
error, and wraps each kind of failure in its own text: a failed read of the
template asset in "failed to read template file ", a failed parse in "failed
to parse template ", a failed execution against the data in "failed to
execute template " (none of the three texts starts with another); it returns
rendered text, with a nil error, only when reading, parsing and executing all
succeed; and when rendering fails, the loop of `GeneratePlugin` stops with
that failure wrapped, the rendering being its last operation: nothing is
written for that file. -/
theorem C22_render_failures_distinct (w : World) (tmplPath : GoString) (data : TemplateData) :
    (∀ err, w.ReadFile tmplPath = .error err →
        renderTemplateFile w tmplPath data
          = ([], some ⟨str "failed to read template file " ++ tmplPath ++ str ": "
              ++ err.Error⟩))
      ∧ (∀ content err, w.ReadFile tmplPath = .ok content →
          w.Parse (Base tmplPath) content = .error err →
          renderTemplateFile w tmplPath data
            = ([], some ⟨str "failed to parse template " ++ tmplPath ++ str ": "
                ++ err.Error⟩))
      ∧ (∀ content tmpl err, w.ReadFile tmplPath = .ok content →
          w.Parse (Base tmplPath) content = .ok tmpl → tmpl data = .error err →
          renderTemplateFile w tmplPath data
            = ([], some ⟨str "failed to execute template " ++ tmplPath ++ str ": "
                ++ err.Error⟩))
      ∧ (∀ content tmpl buf, w.ReadFile tmplPath = .ok content →
          w.Parse (Base tmplPath) content = .ok tmpl → tmpl data = .ok buf →
          renderTemplateFile w tmplPath data = (buf, none))
      ∧ ((renderTemplateFile w tmplPath data).2 ≠ none →
          (renderTemplateFile w tmplPath data).1 = [])
      ∧ ((renderTemplateFile w tmplPath data).2 = none →
          ∃ content tmpl, w.ReadFile tmplPath = .ok content
            ∧ w.Parse (Base tmplPath) content = .ok tmpl
            ∧ tmpl data = .ok (renderTemplateFile w tmplPath data).1)
      ∧ ((str "failed to read template file").isPrefixOf (str "failed to parse template") = false
          ∧ (str "failed to read template file").isPrefixOf (str "failed to execute template")
              = false
          ∧ (str "failed to parse template").isPrefixOf (str "failed to read template file")
              = false
          ∧ (str "failed to parse template").isPrefixOf (str "failed to execute template")
              = false
          ∧ (str "failed to execute template").isPrefixOf (str "failed to read template file")
              = false
          ∧ (str "failed to execute template").isPrefixOf (str "failed to parse template")
              = false)
      ∧ (∀ outputPath rest tr err, (renderTemplateFile w tmplPath data).2 = some err →
          generateFiles w data ((outputPath, tmplPath) :: rest) tr
            = ⟨some (Errorf (str "failed to render template for " ++ outputPath ++ str ": ") err),
                tr ++ [⟨.renderTemplateFile tmplPath, some err⟩]⟩) := by
  refine ⟨?_, ?_, ?_, ?_, ?_, ?_, by decide, ?_⟩
  · intro err h
    simp only [renderTemplateFile, h, Errorf, List.append_assoc]
  · intro content err h1 h2
    simp only [renderTemplateFile, h1, h2, Errorf, List.append_assoc]
  · intro content tmpl err h1 h2 h3
    simp only [renderTemplateFile, h1, h2, h3, Errorf, List.append_assoc]
  · intro content tmpl buf h1 h2 h3
    simp only [renderTemplateFile, h1, h2, h3]
  · intro _
    unfold renderTemplateFile
    cases h1 : w.ReadFile tmplPath with
    | error err => rfl
    | ok content =>
      simp only
      cases h2 : w.Parse (Base tmplPath) content with
      | error err => rfl
      | ok tmpl =>
        simp only
        cases h3 : tmpl data with
        | error err => rfl
        | ok buf => simp_all [renderTemplateFile]
  · intro hnone
    unfold renderTemplateFile at hnone ⊢
    cases h1 : w.ReadFile tmplPath with
    | error err => simp [h1] at hnone
    | ok content =>
      simp only [h1] at hnone ⊢
      cases h2 : w.Parse (Base tmplPath) content with
      | error err => simp [h2] at hnone
      | ok tmpl =>
        simp only [h2] at hnone ⊢
        cases h3 : tmpl data with
        | error err => simp [h3] at hnone
        | ok buf => exact ⟨content, tmpl, rfl, h2, h3⟩
  · intro outputPath rest tr err h
    cases hr : renderTemplateFile w tmplPath data with
    | mk content e =>
      rw [hr] at h
      simp only at h
      subst h
      simp only [generateFiles, hr]

/-- Whatever happens, the operations `GeneratePlugin` performs are the first
of its planned steps, in order. -/
theorem trace_ops_prefix_planned (w : World) (name description : GoString) :
    (GeneratePlugin w name description).trace.map Event.op
      <+: (plannedSteps w name description).map Prod.fst := by
  rw [GeneratePlugin_eq_runSteps]
  cases herr : (runSteps w (templateData w name description)
      (plannedSteps w name description) []).err with
  | none =>
    rw [runSteps_trace_of_ok _ _ _ _ herr]
    simp only [List.nil_append, okEvents, List.map_map]
    exact ⟨[], by simp⟩
  | some err =>
    obtain ⟨pre, op, text, rest, inner, hsteps, _, _, _, htr⟩ := runSteps_of_err _ _ _ _ err herr
    rw [htr, hsteps]
    refine ⟨rest.map Prod.fst, ?_⟩
    simp [okEvents]

/-- The planned steps hold four directory creations and four file writes. -/
theorem planned_counts (w : World) (name description : GoString) :
    ((plannedSteps w name description).map Prod.fst).countP Op.isMkdirAll = 4
      ∧ ((plannedSteps w name description).map Prod.fst).countP Op.isWriteFile = 4 := by
  constructor <;>
    simp [plannedSteps, dirSteps, pluginDirs, fileSteps, filesToGenerate, List.countP_cons,
      Op.isMkdirAll, Op.isWriteFile]

/-- One call of `os.MkdirAll` can create at most one directory for each
element of its path. -/
theorem mkdirAllDirs_length_le (path : GoString) :
    (mkdirAllDirs path).length ≤ (splitSlash path).length := by
  unfold mkdirAllDirs
  cases hs : splitSlash path with
  | nil => simp
  | cons a l =>
    have h1 : ((a :: l).inits.map fun pre =>
        (pre.foldl (pushElem (isRooted path)) []).reverse)
        = [] :: ((l.inits.map (List.cons a)).map fun pre =>
            (pre.foldl (pushElem (isRooted path)) []).reverse) := by
      simp [List.inits]
    rw [h1, List.filter_cons_of_neg (by simp)]
    refine le_trans (List.length_filter_le _ _) ?_
    simp [List.length_inits]

/-- The directories two lists of operations can create. -/
theorem opsDirs_append (l1 l2 : List Op) : opsDirs (l1 ++ l2) = opsDirs l1 ++ opsDirs l2 := by
  induction l1 with
  | nil => rfl
  | cons op rest ih =>
    cases op <;> simp [opsDirs, ih]

/-- The directories the planned steps can create are those of the plugin
directory and of the three directories below it. -/
theorem opsDirs_planned (w : World) (name description : GoString) :
    opsDirs ((plannedSteps w name description).map Prod.fst)
      = mkdirAllDirs (str "./" ++ name)
        ++ (mkdirAllDirs (Join [str "./" ++ name, str "lua", name])
          ++ (mkdirAllDirs (Join [str "./" ++ name, str "plugin"])
            ++ mkdirAllDirs (Join [str "./" ++ name, str "doc"]))) := by
  simp [plannedSteps, dirSteps, pluginDirs, fileSteps, filesToGenerate, opsDirs]

/-- C23, as the code has it: one call of `GeneratePlugin` performs at most
twelve operations, whatever the name, the description and the failures: at
most four calls of `os.MkdirAll` (for the plugin directory, and below it for
lua/name, plugin and doc) and at most four calls of `os.WriteFile`. Each
`os.MkdirAll` call creates its directory and that directory's missing
parents, so the directories created number at most the path elements of
these four paths together; in an empty working directory they are five for
the name "x" and seven for the name "a/b". -/
theorem C23_bounded_operations (w : World) (name description : GoString) :
    ((GeneratePlugin w name description).trace.map Event.op).countP Op.isMkdirAll ≤ 4
      ∧ ((GeneratePlugin w name description).trace.map Event.op).countP Op.isWriteFile ≤ 4
      ∧ (GeneratePlugin w name description).trace.length ≤ 12
      ∧ (createdDirs (GeneratePlugin w name description).trace).length
          ≤ (splitSlash (str "./" ++ name)).length
            + (splitSlash (Join [str "./" ++ name, str "lua", name])).length
            + (splitSlash (Join [str "./" ++ name, str "plugin"])).length
            + (splitSlash (Join [str "./" ++ name, str "doc"])).length
      ∧ (createdDirs (GeneratePlugin okWorld (str "x") (str "d")).trace).length = 5
      ∧ (createdDirs (GeneratePlugin okWorld (str "a/b") (str "d")).trace).length = 7 := by
  have hp := trace_ops_prefix_planned w name description
  obtain ⟨h1, h2⟩ := planned_counts w name description
  refine ⟨?_, ?_, ?_, ?_, by decide, by decide⟩
  · rw [← h1]
    exact hp.sublist.countP_le _
  · rw [← h2]
    exact hp.sublist.countP_le _
  · have hl := hp.length_le
    simp only [List.length_map, plannedSteps_length] at hl
    exact hl
  · obtain ⟨rest, hrest⟩ := hp
    have hd : (createdDirs (GeneratePlugin w name description).trace).length
        ≤ (opsDirs ((GeneratePlugin w name description).trace.map Event.op)).length :=
      (List.dedup_sublist _).length_le
    have hle : (opsDirs ((GeneratePlugin w name description).trace.map Event.op)).length
        ≤ (opsDirs ((plannedSteps w name description).map Prod.fst)).length := by
      rw [← hrest, opsDirs_append, List.length_append]
      exact Nat.le_add_right _ _
    rw [opsDirs_planned] at hle
    simp only [List.length_append] at hle
    have a1 := mkdirAllDirs_length_le (str "./" ++ name)
    have a2 := mkdirAllDirs_length_le (Join [str "./" ++ name, str "lua", name])
    have a3 := mkdirAllDirs_length_le (Join [str "./" ++ name, str "plugin"])
    have a4 := mkdirAllDirs_length_le (Join [str "./" ++ name, str "doc"])
    omega

/-- C23 as stated fails: for the name "x" in an empty working directory
where every step succeeds, the call makes four calls of `os.MkdirAll`, which
create five directories (x, x/lua, x/lua/x, x/plugin and x/doc), not at most
three. -/
theorem C23_more_than_three_directories_counterexample :
    ((GeneratePlugin okWorld (str "x") (str "d")).trace.map Event.op).countP Op.isMkdirAll = 4
      ∧ ¬ ((GeneratePlugin okWorld (str "x") (str "d")).trace.map Event.op).countP
            Op.isMkdirAll ≤ 3
      ∧ createdDirs (GeneratePlugin okWorld (str "x") (str "d")).trace
          = [[str "x", str "lua"], [str "x", str "lua", str "x"], [str "x", str "plugin"],
             [str "x"], [str "x", str "doc"]]
      ∧ ¬ (createdDirs (GeneratePlugin okWorld (str "x") (str "d")).trace).length ≤ 3 := by
  decide

/-! ## The stored error -/

/-- From a model that is not done and holds no error, one call of `Update`
either leaves it so without calling the generator, or moves to `done` with
exactly one generator call on the two buffers, whose result is stored. -/
theorem Update_step_cases (gen : Generator) (msg : Msg) (m : Model) (r : Step)
    (h : Update gen msg m = some r) (hnd : m.status ≠ .done) (he : m.err = none) :
    (r.model.status ≠ .done ∧ r.model.err = none ∧ r.calls = [])
      ∨ (r.model.status = .done ∧ r.calls = [(m.pluginName, m.description)]
          ∧ r.model.err = gen m.pluginName m.description
          ∧ r.model.pluginName = m.pluginName ∧ r.model.description = m.description) := by
  unfold Update at h
  split_ifs at h with hq
  · simp only [Option.some.injEq] at h
    subst h
    exact Or.inl ⟨hnd, he, rfl⟩
  · cases hs : m.status <;> rw [hs] at h <;> simp only at h
    · cases msg with
      | other t =>
        simp only [updateNameInput, Option.some.injEq] at h
        subst h
        exact Or.inl ⟨hnd, he, rfl⟩
      | key k =>
        simp only [updateNameInput] at h
        split_ifs at h with h1 h2 h3 h4 h5
        · simp only [Option.some.injEq] at h
          subst h
          exact Or.inl ⟨by simp, he, rfl⟩
        · simp only [Option.some.injEq] at h
          subst h
          exact Or.inl ⟨hnd, he, rfl⟩
        · rw [sliceTo_pred _ h4] at h
          simp only [Option.map_some', Option.some.injEq] at h
          subst h
          exact Or.inl ⟨hnd, he, rfl⟩
        · simp only [Option.some.injEq] at h
          subst h
          exact Or.inl ⟨hnd, he, rfl⟩
        · simp only [Option.some.injEq] at h
          subst h
          exact Or.inl ⟨hnd, he, rfl⟩
        · simp only [Option.some.injEq] at h
          subst h
          exact Or.inl ⟨hnd, he, rfl⟩
    · cases msg with
      | other t =>
        simp only [updateDescriptionInput, Option.some.injEq] at h
        subst h
        exact Or.inl ⟨hnd, he, rfl⟩
      | key k =>
        simp only [updateDescriptionInput] at h
        split_ifs at h with h1 h2 h3 h4
        · simp only [Option.some.injEq] at h
          subst h
          exact Or.inl ⟨by simp, he, rfl⟩
        · rw [sliceTo_pred _ h3] at h
          simp only [Option.map_some', Option.some.injEq] at h
          subst h
          exact Or.inl ⟨hnd, he, rfl⟩
        · simp only [Option.some.injEq] at h
          subst h
          exact Or.inl ⟨hnd, he, rfl⟩
        · simp only [Option.some.injEq] at h
          subst h
          exact Or.inl ⟨hnd, he, rfl⟩
        · simp only [Option.some.injEq] at h
          subst h
          exact Or.inl ⟨hnd, he, rfl⟩
    · cases msg with
      | other t =>
        simp only [updateConfirmScreen, Option.some.injEq] at h
        subst h
        exact Or.inl ⟨hnd, he, rfl⟩
      | key k =>
        simp only [updateConfirmScreen] at h
        split_ifs at h with h1 h2
        · simp only [Option.some.injEq] at h
          subst h
          refine Or.inr ⟨rfl, rfl, ?_, ?_, ?_⟩
          all_goals cases hg : gen m.pluginName m.description <;> simp [he]
        · simp only [Option.some.injEq] at h
          subst h
          exact Or.inl ⟨by simp, he, rfl⟩
        · simp only [Option.some.injEq] at h
          subst h
          exact Or.inl ⟨hnd, he, rfl⟩
    · exact absurd hs hnd

/-- On a model with status `done`, `Update` returns the model itself and
calls no generator. -/
theorem Update_of_done (gen : Generator) (msg : Msg) (m : Model) (r : Step)
    (hs : m.status = .done) (h : Update gen msg m = some r) :
    r.model = m ∧ r.calls = [] := by
  cases hq : isQuit msg
  · rw [Update_of_not_isQuit gen msg m hq, hs] at h
    simp only [Option.some.injEq] at h
    subst h
    exact ⟨rfl, rfl⟩
  · rw [Update_of_isQuit gen msg m hq] at h
    simp only [Option.some.injEq] at h
    subst h
    exact ⟨rfl, rfl⟩

/-- From a model with status `done`, every sequence of messages returns the
model itself without a generator call. -/
theorem runUpdates_of_done (l : List (Generator × Msg)) (m : Model) (hs : m.status = .done) :
    runUpdates l m = some (m, []) := by
  induction l with
  | nil => rfl
  | cons p rest ih =>
    obtain ⟨gen, msg⟩ := p
    obtain ⟨r, hr⟩ := Update_total gen msg m
    obtain ⟨h1, h2⟩ := Update_of_done gen msg m r hs hr
    simp only [runUpdates, hr, h1, ih, h2, List.append_nil]

/-- `Update` preserves: a stored error implies status `done`. -/
theorem Update_preserves_err (gen : Generator) (msg : Msg) (m : Model) (r : Step)
    (h : Update gen msg m = some r) (hinv : m.err ≠ none → m.status = .done) :
    r.model.err ≠ none → r.model.status = .done := by
  by_cases hs : m.status = .done
  · obtain ⟨h1, _⟩ := Update_of_done gen msg m r hs h
    rw [h1]
    exact fun _ => hs
  · have he : m.err = none := by
      by_contra hne
      exact hs (hinv hne)
    rcases Update_step_cases gen msg m r h hs he with ⟨_, h2, _⟩ | ⟨h1, _⟩
    · exact fun hne => absurd h2 hne
    · exact fun _ => h1

/-- A run from a model that is not done and holds no error either ends so,
without a generator call, or ends in `done` after exactly one generator call,
made on the final buffers by the `Update` that reached `done`, whose result
is the stored error. -/
theorem runUpdates_single_call (l : List (Generator × Msg)) (m0 m : Model)
    (calls : List (GoString × GoString))
    (hnd : m0.status ≠ .done) (he : m0.err = none)
    (h : runUpdates l m0 = some (m, calls)) :
    (m.status ≠ .done ∧ m.err = none ∧ calls = [])
      ∨ (m.status = .done ∧ calls = [(m.pluginName, m.description)]
          ∧ ∃ pre g msg post mc c, l = pre ++ (g, msg) :: post
              ∧ runUpdates pre m0 = some (mc, [])
              ∧ Update g msg mc = some ⟨m, c, [(m.pluginName, m.description)]⟩
              ∧ m.err = g m.pluginName m.description) := by
  induction l generalizing m0 calls with
  | nil =>
    simp only [runUpdates, Option.some.injEq, Prod.mk.injEq] at h
    obtain ⟨rfl, rfl⟩ := h
    exact Or.inl ⟨hnd, he, rfl⟩
  | cons p rest ih =>
    obtain ⟨g, msg⟩ := p
    obtain ⟨r, hr⟩ := Update_total g msg m0
    simp only [runUpdates, hr] at h
    rcases Update_step_cases g msg m0 r hr hnd he with ⟨h1, h2, h3⟩ | ⟨h1, h2, h3, h4, h5⟩
    · cases hrest : runUpdates rest r.model with
      | none => simp [hrest] at h
      | some q =>
        obtain ⟨m2, cs⟩ := q
        simp only [hrest, Option.some.injEq, Prod.mk.injEq] at h
        obtain ⟨rfl, rfl⟩ := h
        rcases ih r.model cs h1 h2 hrest with hl | ⟨hd, hc, pre, g2, msg2, post, mc, c, hl, hpre, hup, herr⟩
        · obtain ⟨a, b, c⟩ := hl
          exact Or.inl ⟨a, b, by simp [h3, c]⟩
        · refine Or.inr ⟨hd, by simp [h3, hc], (g, msg) :: pre, g2, msg2, post, mc, c, ?_, ?_,
            hup, herr⟩
          · simp [hl]
          · simp only [runUpdates, hr, hpre, h3, List.append_nil]
    · rw [runUpdates_of_done rest r.model h1] at h
      simp only [Option.some.injEq, Prod.mk.injEq] at h
      obtain ⟨rfl, rfl⟩ := h
      refine Or.inr ⟨h1, by simp [h2, h4, h5], [], g, msg, rest, m0, r.cmd, rfl, rfl, ?_, ?_⟩
      · rw [hr, h4, h5, ← h2]
      · rw [h3, h4, h5]

theorem failedT_reachable : Reachable failedT := by
  have h1 : Reachable ⟨.confirmScreen, [116], [], 0, none⟩ :=
    Reachable.step (fun _ _ => none) (.key ⟨KeyEnter, [], false, false⟩) typedT
      ⟨⟨.confirmScreen, [116], [], 0, none⟩, .nil, []⟩ typedT_reachable (by decide)
  exact Reachable.step (fun _ _ => some ⟨[120]⟩) (.key ⟨.KeyRunes, [121], false, false⟩)
    ⟨.confirmScreen, [116], [], 0, none⟩ ⟨failedT, .nil, [([116], [])]⟩ h1 (by decide)

/-- C24: in every model reachable from `NewModel()`, a stored error implies
status `done`; equivalently `err` is nil in `nameInput`, `descriptionInput`
and `confirmScreen`. And in every run of `Update` calls from `NewModel()`
ending in that model, the generator is called at most once, and a stored
error is the result of that one call, made on the final buffers by the
`Update` that reached `done`. -/
theorem C24_error_implies_done (m : Model) (hr : Reachable m) :
    (m.err ≠ none → m.status = .done)
      ∧ (m.status ≠ .done → m.err = none)
      ∧ (∀ (l : List (Generator × Msg)) (calls : List (GoString × GoString)),
          runUpdates l NewModel = some (m, calls) →
            calls.length ≤ 1
              ∧ (∀ e, m.err = some e →
                  calls = [(m.pluginName, m.description)]
                    ∧ ∃ pre g msg post mc c, l = pre ++ (g, msg) :: post
                        ∧ runUpdates pre NewModel = some (mc, [])
                        ∧ Update g msg mc = some ⟨m, c, [(m.pluginName, m.description)]⟩
                        ∧ g m.pluginName m.description = some e)) := by
  have key : ∀ x, Reachable x → x.err ≠ none → x.status = .done := by
    intro x hx
    induction hx with
    | init => intro h; exact absurd rfl h
    | step gen msg y r _ hu ih => exact Update_preserves_err gen msg y r hu ih
  refine ⟨key m hr, ?_, ?_⟩
  · intro hs
    by_contra hne
    exact hs (key m hr hne)
  · intro l calls hrun
    rcases runUpdates_single_call l NewModel m calls (by decide) rfl hrun with
      ⟨_, h2, h3⟩ | ⟨_, hc, pre, g, msg, post, mc, c, hl, hpre, hup, herr⟩
    · refine ⟨by simp [h3], ?_⟩
      intro e he
      rw [h2] at he
      exact absurd he (by simp)
    · refine ⟨by simp [hc], ?_⟩
      intro e he
      exact ⟨hc, pre, g, msg, post, mc, c, hl, hpre, hup, by rw [← herr, he]⟩

theorem C24_error_implies_done_witness :
    Reachable failedT ∧ failedT.err ≠ none ∧ failedT.status = .done :=
  ⟨failedT_reachable, by decide,
    (C24_error_implies_done failedT failedT_reachable).1 (by decide)⟩

/-! ## Accepting on the confirmation screen -/

/-- A reachable model that is not done holds no error. -/
theorem Reachable_err_none (m : Model) (hr : Reachable m) (hs : m.status ≠ .done) :
    m.err = none := by
  have key : ∀ x, Reachable x → x.err ≠ none → x.status = .done := by
    intro x hx
    induction hx with
    | init => intro h; exact absurd rfl h
    | step gen msg y r _ hu ih => exact Update_preserves_err gen msg y r hu ih
  by_contra hne
  exact hs (key m hr hne)

theorem confirmT_reachable : Reachable confirmT :=
  Reachable.step (fun _ _ => none) (.key ⟨KeyEnter, [], false, false⟩) typedT
    ⟨confirmT, .nil, []⟩ typedT_reachable (by decide)

/-- C5: for every model reachable from `NewModel()` with status
`confirmScreen`, `Update` with a key rendering as "y" or "Y" calls the
generator exactly once, with `(m.pluginName, m.description)`, and returns
status `done` with `pluginName`, `description` and `cursor` unchanged and a
nil command; `err` holds the generator's result: the returned error if
generation failed, and no error if generation succeeded. -/
theorem C5_accept_stores_generator_result (gen : Generator) (m : Model) (k : KeyMsg)
    (hr : Reachable m) (hs : m.status = .confirmScreen)
    (hk : k.String = str "y" ∨ k.String = str "Y") :
    ∃ r, Update gen (.key k) m = some r
      ∧ r.calls = [(m.pluginName, m.description)]
      ∧ r.model.status = .done
      ∧ r.model.pluginName = m.pluginName ∧ r.model.description = m.description
      ∧ r.model.cursor = m.cursor ∧ r.cmd = .nil
      ∧ r.model.err = gen m.pluginName m.description
      ∧ (∀ e, gen m.pluginName m.description = some e → r.model.err = some e)
      ∧ (gen m.pluginName m.description = none → r.model.err = none) := by
  have he : m.err = none := Reachable_err_none m hr (by rw [hs]; decide)
  obtain ⟨r, h1, h2, h3, h4, h5, h6, h7, h8, h9⟩ := Update_accept gen m k hs hk
  have herr : r.model.err = gen m.pluginName m.description := by
    cases hg : gen m.pluginName m.description with
    | none => rw [h9 hg, he]
    | some e => exact h8 e hg
  refine ⟨r, h1, h2, h3, h4, h5, h6, h7, herr, h8, ?_⟩
  intro hg
  rw [herr, hg]

theorem C5_accept_stores_generator_result_witness :
    ∃ r, Update (fun _ _ => none) (.key ⟨.KeyRunes, [121], false, false⟩) confirmT = some r
      ∧ r.calls = [(confirmT.pluginName, confirmT.description)]
      ∧ r.model.status = .done
      ∧ r.model.pluginName = confirmT.pluginName
      ∧ r.model.description = confirmT.description
      ∧ r.model.cursor = confirmT.cursor ∧ r.cmd = .nil
      ∧ r.model.err = (fun _ _ => none : Generator) confirmT.pluginName confirmT.description
      ∧ (∀ e, (fun _ _ => none : Generator) confirmT.pluginName confirmT.description = some e →
          r.model.err = some e)
      ∧ ((fun _ _ => none : Generator) confirmT.pluginName confirmT.description = none →
          r.model.err = none) :=
  C5_accept_stores_generator_result (fun _ _ => none) confirmT ⟨.KeyRunes, [121], false, false⟩
    confirmT_reachable rfl (Or.inl (by decide))

/-! ## What the wrapper of a failing step names -/

/-- A string that contains `p` still contains it with more appended. -/
theorem Contains_append_infix (a p b c : GoString) : Contains (a ++ p ++ b ++ c) p = true := by
  have h := Contains_infix a p (b ++ c)
  simpa only [List.append_assoc] using h

/-- A step of the loop over `dirs` creates one of the directories, and the
text around its failure holds that directory's path. -/
theorem dirSteps_mem (dirs : List GoString) (st : Op × GoString) (hst : st ∈ dirSteps dirs) :
    ∃ dir ∈ dirs, st = (Op.MkdirAll dir 0o755,
      str "failed to create directory " ++ dir ++ str ": ") := by
  obtain ⟨dir, hdir, rfl⟩ := List.mem_map.mp hst
  exact ⟨dir, hdir, rfl⟩

/-- A step of the loop over `filesToGenerate` renders or writes one of the
files, and the text around its failure holds that file's output path. -/
theorem fileSteps_mem (w : World) (data : TemplateData) (files : List (GoString × GoString))
    (st : Op × GoString) (hst : st ∈ fileSteps w data files) :
    ∃ f ∈ files,
      st = (Op.renderTemplateFile f.2, str "failed to render template for " ++ f.1 ++ str ": ")
        ∨ st = (Op.WriteFile f.1 (renderTemplateFile w f.2 data).1 0o644,
            str "failed to write file " ++ f.1 ++ str ": ") := by
  obtain ⟨f, hf, hmem⟩ := List.mem_flatMap.mp hst
  refine ⟨f, hf, ?_⟩
  simp only [List.mem_cons, List.mem_singleton, List.not_mem_nil, or_false] at hmem
  exact hmem

/-- C20, as the code has it: when `GeneratePlugin` fails, the returned
message is the text of its wrapper followed by the message of the failure of
the first failing step. For a directory below the plugin directory, a
template rendering or a file write, the wrapper's text, and so the message,
contains the path of the directory or of the output file of that step. For
the plugin directory itself the wrapper's text is the fixed "failed to create
plugin directory: ", with no path in it. -/
theorem C20_wrapper_names_path_below_root (w : World) (name description : GoString)
    (e : GoError) (h : (GeneratePlugin w name description).err = some e) :
    ∃ pre op text rest inner,
      plannedSteps w name description = pre ++ (op, text) :: rest
        ∧ (GeneratePlugin w name description).trace = okEvents pre ++ [⟨op, some inner⟩]
        ∧ e.Error = text ++ inner.Error
        ∧ ((pre = [] ∧ op = Op.MkdirAll (str "./" ++ name) 0o755
              ∧ text = str "failed to create plugin directory: ")
          ∨ (∃ dir ∈ pluginDirs name, op = Op.MkdirAll dir 0o755
              ∧ Contains text dir = true ∧ Contains e.Error dir = true)
          ∨ (∃ f ∈ filesToGenerate name, op = Op.renderTemplateFile f.2
              ∧ Contains text f.1 = true ∧ Contains e.Error f.1 = true)
          ∨ (∃ f ∈ filesToGenerate name, ∃ content, op = Op.WriteFile f.1 content 0o644
              ∧ Contains text f.1 = true ∧ Contains e.Error f.1 = true)) := by
  rw [GeneratePlugin_eq_runSteps] at h ⊢
  obtain ⟨pre, op, text, rest, inner, hsteps, _, _, he, htr⟩ := runSteps_of_err _ _ _ _ e h
  have hmsg : e.Error = text ++ inner.Error := by rw [he]; rfl
  refine ⟨pre, op, text, rest, inner, hsteps, by simpa using htr, hmsg, ?_⟩
  cases pre with
  | nil =>
    left
    simp only [plannedSteps, List.nil_append, List.cons.injEq, Prod.mk.injEq] at hsteps
    exact ⟨rfl, hsteps.1.1.symm, hsteps.1.2.symm⟩
  | cons p0 pre1 =>
    right
    have hmem : (op, text) ∈ dirSteps (pluginDirs name)
        ++ fileSteps w (templateData w name description) (filesToGenerate name) := by
      simp only [plannedSteps, List.cons_append, List.cons.injEq] at hsteps
      rw [hsteps.2]
      simp
    rcases List.mem_append.mp hmem with hd | hf
    · obtain ⟨dir, hdir, heq⟩ := dirSteps_mem _ _ hd
      simp only [Prod.mk.injEq] at heq
      obtain ⟨rfl, rfl⟩ := heq
      left
      exact ⟨dir, hdir, rfl, Contains_infix _ _ _, by rw [hmsg]; exact Contains_append_infix _ _ _ _⟩
    · obtain ⟨f, hfm, heq | heq⟩ := fileSteps_mem _ _ _ _ hf
      · simp only [Prod.mk.injEq] at heq
        obtain ⟨rfl, rfl⟩ := heq
        right; left
        exact ⟨f, hfm, rfl, Contains_infix _ _ _,
          by rw [hmsg]; exact Contains_append_infix _ _ _ _⟩
      · simp only [Prod.mk.injEq] at heq
        obtain ⟨rfl, rfl⟩ := heq
        right; right
        exact ⟨f, hfm, _, rfl, Contains_infix _ _ _,
          by rw [hmsg]; exact Contains_append_infix _ _ _ _⟩

theorem C20_wrapper_names_path_below_root_witness :
    ∃ pre op text rest inner,
      plannedSteps readOnlyWorld (str "x") (str "d") = pre ++ (op, text) :: rest
        ∧ (GeneratePlugin readOnlyWorld (str "x") (str "d")).trace
            = okEvents pre ++ [⟨op, some inner⟩]
        ∧ (⟨str "failed to create plugin directory: mkdir ./x: permission denied"⟩ :
            GoError).Error = text ++ inner.Error
        ∧ ((pre = [] ∧ op = Op.MkdirAll (str "./" ++ str "x") 0o755
              ∧ text = str "failed to create plugin directory: ")
          ∨ (∃ dir ∈ pluginDirs (str "x"), op = Op.MkdirAll dir 0o755
              ∧ Contains text dir = true
              ∧ Contains (⟨str "failed to create plugin directory: mkdir ./x: permission denied"⟩ :
                  GoError).Error dir = true)
          ∨ (∃ f ∈ filesToGenerate (str "x"), op = Op.renderTemplateFile f.2
              ∧ Contains text f.1 = true
              ∧ Contains (⟨str "failed to create plugin directory: mkdir ./x: permission denied"⟩ :
                  GoError).Error f.1 = true)
          ∨ (∃ f ∈ filesToGenerate (str "x"), ∃ content, op = Op.WriteFile f.1 content 0o644
              ∧ Contains text f.1 = true
              ∧ Contains (⟨str "failed to create plugin directory: mkdir ./x: permission denied"⟩ :
                  GoError).Error f.1 = true)) :=
  C20_wrapper_names_path_below_root readOnlyWorld (str "x") (str "d")
    ⟨str "failed to create plugin directory: mkdir ./x: permission denied"⟩ (by decide)

/-- C20 as stated fails at the first step: for the name "a/b" in a read-only
working directory, creating the plugin directory "./a/b" fails at its parent
with "mkdir ./a: permission denied", and the message `GeneratePlugin`
returns, "failed to create plugin directory: mkdir ./a: permission denied",
does not contain the path "./a/b" of the directory the step was creating:
neither the wrapper's own text nor the whole message holds it. -/
theorem C20_root_message_lacks_path_counterexample :
    (GeneratePlugin readOnlyWorld (str "a/b") (str "d")).trace
        = [⟨Op.MkdirAll (str "./a/b") 0o755,
            some (PathError (str "mkdir") (str "./a") (str "permission denied"))⟩]
      ∧ (GeneratePlugin readOnlyWorld (str "a/b") (str "d")).err
        = some ⟨str "failed to create plugin directory: mkdir ./a: permission denied"⟩
      ∧ Contains (str "failed to create plugin directory: mkdir ./a: permission denied")
          (str "./a/b") = false
      ∧ Contains (str "failed to create plugin directory: ") (str "./a/b") = false := by
  decide

end NvimPlugin
